import Mathlib

/-!
A shallow embedding of the provenance-signing core of the `accord` repository:

* `scripts/provtools.py` — in-toto Statement validation, DSSE signing and
  verification (`pae`, `dsse_sign`, `dsse_verify`, `validate_statement`,
  `fill_and_check_digests`, `cmd_verify`);
* `scripts/provtools_cache.py` — the race-checked SHA-256 cache
  (`sha256_cached`, `_meta_from_stat`);
* `scripts/runtime_guard.py` — the capability guard (`FileScope`,
  `MCPGuard`, `RuntimeGuard.from_alou`).

Python dictionaries are modelled as association lists with unique keys
(Python guarantees key uniqueness); JSON documents are modelled by the
inductive type `Json`.  External primitives are abstracted at their
contract boundary: Ed25519 is an ideal signature scheme (a signature is
exactly the pair of the signing key and the signed message, and verifies
iff it was produced over the same message by the matching key), SHA-256
digests of files and the state of the filesystem are supplied by an
oracle environment `FSEnv`, and `json.loads` is a `decode` parameter.
A Python function that can raise an exception that its caller does not
catch is modelled with `Option`/`Except`, `none`/`.error` meaning the
exception escapes.
-/

/-! ### JSON values

Models Python objects that can appear as parsed JSON / YAML data: `None`,
booleans, integers, strings, lists and dictionaries (association lists;
Python dictionaries preserve insertion order and have unique keys). -/

inductive Json where
  | null : Json
  | bool (b : Bool) : Json
  | num (n : Int) : Json
  | str (s : String) : Json
  | arr (xs : List Json) : Json
  | obj (kvs : List (String × Json)) : Json

/-- Python truthiness (`bool(x)`) restricted to JSON values: `None`,
`False`, `0`, `""`, `[]` and `` \x7b\x7d `` are falsy. -/
def jsonFalsy : Json → Bool
  | .null => true
  | .bool b => !b
  | .num n => n == 0
  | .str s => s == ""
  | .arr xs => xs.isEmpty
  | .obj kvs => kvs.isEmpty

/-- Dictionary lookup, `d.get(k)`: the value bound to the first occurrence
of the key. -/
def lookupJson (kvs : List (String × Json)) (k : String) : Option Json :=
  match kvs with
  | [] => none
  | (k', v) :: rest => if k' = k then some v else lookupJson rest k

/-- Dictionary assignment `d[k] = v` on a key that is already present:
replaces the value at the first occurrence of the key, keeping its
position (as Python dictionaries do). If the key is absent the list is
returned unchanged; use `objAssign` for the general assignment. -/
def objSet (kvs : List (String × Json)) (k : String) (v : Json) : List (String × Json) :=
  match kvs with
  | [] => []
  | (k', w) :: rest => if k' = k then (k', v) :: rest else (k', w) :: objSet rest k v

/-- Dictionary assignment `d[k] = v`: replace in place if the key exists,
otherwise append at the end (Python insertion order). -/
def objAssign (kvs : List (String × Json)) (k : String) (v : Json) : List (String × Json) :=
  if (lookupJson kvs k).isSome then objSet kvs k v else kvs ++ [(k, v)]

/-- Dictionary removal `d.pop(k, None)`: removes the binding of `k` if
present. -/
def objRemove (kvs : List (String × Json)) (k : String) : List (String × Json) :=
  match kvs with
  | [] => []
  | (k', w) :: rest => if k' = k then rest else (k', w) :: objRemove rest k

/-- Python `d.setdefault(k, v)`: insert `k ↦ v` (at the end) if `k` is
absent, otherwise leave the dictionary unchanged. -/
def setdefaultObj (kvs : List (String × Json)) (k : String) (v : Json) : List (String × Json) :=
  if (lookupJson kvs k).isSome then kvs else kvs ++ [(k, v)]

/-! ### Lexicographic string comparison

Python compares strings lexicographically by code point.  The core
`String.decidableLE` instance does not reduce in the kernel, so the
comparison is implemented directly on character lists. -/

/-- Lexicographic `≤` on character lists, by code point — the order Python
uses to compare strings (and hence the order of `sorted` and of
`json.dumps(..., sort_keys=True)`). -/
def lexLe : List Char → List Char → Bool
  | [], _ => true
  | _ :: _, [] => false
  | a :: as, b :: bs => decide (a < b) || (a == b && lexLe as bs)

/-- String `≤` by code points, as Python compares `str` values. -/
def strLe (s t : String) : Bool := lexLe s.data t.data

/-! ### JSON serialization

Models `json.dumps(x, separators=(",", ":"), ensure_ascii=False,
sort_keys=True)`: compact separators, object keys emitted in sorted
order, non-ASCII characters passed through (the result is UTF-8 encoded
by `.encode()`, modelled by `utf8Encode`). -/

/-- JSON string escaping of one character as `json.dumps` performs it with
`ensure_ascii=False`: `"` and `\` are backslash-escaped, the five control
characters with short forms use them, other control characters below
`0x20` become `\u00XX`, and everything else is passed through. -/
def escChar (c : Char) : List Char :=
  if c = '"' then ['\\', '"']
  else if c = '\\' then ['\\', '\\']
  else if c = Char.ofNat 10 then ['\\', 'n']
  else if c = Char.ofNat 13 then ['\\', 'r']
  else if c = Char.ofNat 9 then ['\\', 't']
  else if c = Char.ofNat 8 then ['\\', 'b']
  else if c = Char.ofNat 12 then ['\\', 'f']
  else if c.toNat < 32 then
    ['\\', 'u', '0', '0',
     (if c.toNat / 16 < 10 then Char.ofNat (48 + c.toNat / 16) else Char.ofNat (87 + c.toNat / 16)),
     (if c.toNat % 16 < 10 then Char.ofNat (48 + c.toNat % 16) else Char.ofNat (87 + c.toNat % 16))]
  else [c]

/-- Rendering of a JSON string literal with surrounding quotes. -/
def renderString (s : String) : String :=
  String.mk ('"' :: s.data.foldr (fun c acc => escChar c ++ acc) ['"'])

/-- Ordering of rendered object entries by their key, used to model
`sort_keys=True` (Python's `sorted` on the dictionary keys). -/
def entryLE (a b : String × String) : Prop := strLe a.1 b.1 = true

instance : DecidableRel entryLE := fun a b => inferInstanceAs (Decidable (strLe a.1 b.1 = true))

mutual
/-- Compact key-sorted serialization of a JSON value: models
`json.dumps(x, separators=(",", ":"), ensure_ascii=False, sort_keys=True)`.
Sorting the rendered entries by key is equivalent to sorting the keys
before rendering, and keeps the recursion structural. -/
def renderJson : Json → String
  | .null => "null"
  | .bool true => "true"
  | .bool false => "false"
  | .num n => toString n
  | .str s => renderString s
  | .arr xs => "[" ++ String.intercalate "," (renderArr xs) ++ "]"
  | .obj kvs =>
      "\x7b" ++
        String.intercalate ","
          ((List.insertionSort entryLE (renderKvs kvs)).map Prod.snd) ++
      "\x7d"

/-- Serialization of the elements of a JSON array, in order. -/
def renderArr : List Json → List String
  | [] => []
  | x :: xs => renderJson x :: renderArr xs

/-- Serialization of the entries of a JSON object: each entry is the pair
of its key and its rendered `"key":value` text. -/
def renderKvs : List (String × Json) → List (String × String)
  | [] => []
  | (k, v) :: rest => (k, renderString k ++ ":" ++ renderJson v) :: renderKvs rest
end

/-! ### UTF-8 and the DSSE pre-authentication encoding -/

/-- UTF-8 encoding of one character as a list of byte values. -/
def utf8Char (c : Char) : List Nat :=
  let n := c.toNat
  if n < 128 then [n]
  else if n < 2048 then [192 + n / 64, 128 + n % 64]
  else if n < 65536 then [224 + n / 4096, 128 + (n / 64) % 64, 128 + n % 64]
  else [240 + n / 262144, 128 + (n / 4096) % 64, 128 + (n / 64) % 64, 128 + n % 64]

/-- UTF-8 encoding of a string (`str.encode()` in Python). -/
def utf8Encode (s : String) : List Nat :=
  s.data.foldr (fun c acc => utf8Char c ++ acc) []

/-- Fixed DSSE payload type, `PAYLOAD_TYPE` in `provtools.py`. -/
def PAYLOAD_TYPE : String := "application/vnd.in-toto+json"

/-- DSSE pre-authentication encoding (`pae` in `provtools.py`):
`b" ".join([b"DSSEv1", str(len(payload_type)).encode(), payload_type.encode(), str(len(payload)).encode(), payload])`.
`len` of the payload type counts characters (`str` length), `len` of the
payload counts bytes; both are rendered as decimal ASCII. -/
def pae (payload_type : String) (payload : List Nat) : List Nat :=
  utf8Encode "DSSEv1" ++ [32] ++
  utf8Encode (toString payload_type.length) ++ [32] ++
  utf8Encode payload_type ++ [32] ++
  utf8Encode (toString payload.length) ++ [32] ++
  payload

/-! ### Ideal Ed25519 and DSSE envelopes

The `cryptography` library's Ed25519 is abstracted as an ideal signature
scheme: a key pair is identified by a natural number (the public key is
derived deterministically from the private key, so one identifier stands
for both halves), a signature is the pair of the signing key pair's
identifier and the signed message, and verification succeeds iff the
signature is exactly the matching private key's signature over the same
message.  This is the correctness contract of Ed25519
(sign/verify round-trip, and unforgeability in the ideal model). -/

structure Sig where
  keyId : Nat
  msg : List Nat
deriving DecidableEq

/-- Ideal `private_key.sign(message)`. -/
def ed25519_sign (priv : Nat) (m : List Nat) : Sig := ⟨priv, m⟩

/-- Ideal `public_key.verify(signature, message)` as a Boolean: true iff
the signature is the matching private key's signature over `m`. -/
def ed25519_verify (pub : Nat) (s : Sig) (m : List Nat) : Bool :=
  s == ⟨pub, m⟩

/-- Models `key_fingerprint`: a deterministic identifier derived from the
public key (in Python the first 16 hex characters of SHA-256 over the DER
encoding; the hash is abstracted, only determinism matters here). -/
def key_fingerprint (pub : Nat) : String := toString pub

/-- One entry of the envelope's `signatures` list. -/
structure SigEntry where
  keyid : String
  sig : Sig
deriving DecidableEq

/-- A DSSE envelope.  The `payload` field holds the raw payload bytes
(the base64 transport encoding of `provtools.py` is a bijection between
those bytes and the stored text, so it is dropped from the model). -/
structure Envelope where
  payloadType : String
  payload : List Nat
  signatures : List SigEntry

/-- Sort key used by `dsse_sign` for subjects and materials:
`item.get("name") or ""`.  Items whose `name` is absent or falsy sort
as `""`; a non-string `name` is outside the modelled domain (Python's
`sorted` would compare mixed types and raise `TypeError`). -/
def nameKey : Json → String
  | .obj kvs =>
      match lookupJson kvs ("name") with
      | some (.str s) => s
      | _ => ""
  | _ => ""

/-- Ordering of subjects/materials by `nameKey`, as
`sorted(items, key=lambda item: (item.get("name") or ""))`. -/
def nameLE (a b : Json) : Prop := strLe (nameKey a) (nameKey b) = true

instance : DecidableRel nameLE :=
  fun a b => inferInstanceAs (Decidable (strLe (nameKey a) (nameKey b) = true))

/-- Stable sort of subjects/materials by name.  Python's `sorted` is the
unique stable sort for the (total, transitive) key order, and
`List.insertionSort` is also stable, so the two agree. -/
def sortByName (items : List Json) : List Json :=
  List.insertionSort nameLE items

/-- The subject half of `dsse_sign`'s canonicalization: if the
statement's `subject` is a list it is sorted by name in place. -/
def canonSubjects (stmt : List (String × Json)) : List (String × Json) :=
  match lookupJson stmt ("subject") with
  | some (.arr subs) => objSet stmt ("subject") (.arr (sortByName subs))
  | _ => stmt

/-- The materials half of `dsse_sign`'s canonicalization: if `predicate`
is a dictionary whose `materials` is a list, the materials are sorted by
name in place. -/
def canonMaterials (stmt : List (String × Json)) : List (String × Json) :=
  match lookupJson stmt ("predicate") with
  | some (.obj pkvs) =>
      match lookupJson pkvs ("materials") with
      | some (.arr mats) =>
          objSet stmt ("predicate") (.obj (objSet pkvs ("materials") (.arr (sortByName mats))))
      | _ => stmt
  | _ => stmt

/-- The canonicalization `dsse_sign` performs before serializing:
subjects sorted by name, then predicate materials sorted by name. -/
def canonicalizeStatement (stmt : List (String × Json)) : List (String × Json) :=
  canonMaterials (canonSubjects stmt)

/-- The signed payload bytes of a statement: canonical ordering, then
compact key-sorted JSON, then UTF-8. -/
def signedPayload (stmt : List (String × Json)) : List Nat :=
  utf8Encode (renderJson (.obj (canonicalizeStatement stmt)))

/-- Models `dsse_sign(statement, priv, key_id)`: canonicalize, serialize,
sign the pre-authentication encoding (never the raw payload), and wrap
in an envelope with a single signature entry.  If no key id is supplied
the key fingerprint is used. -/
def dsse_sign (stmt : List (String × Json)) (priv : Nat) (key_id : String) : Envelope :=
  let payload := signedPayload stmt
  let kid := if key_id = "" then key_fingerprint priv else key_id
  { payloadType := PAYLOAD_TYPE
    payload := payload
    signatures := [⟨kid, ed25519_sign priv (pae PAYLOAD_TYPE payload)⟩] }

/-- Models `dsse_verify(envelope, pub)`: reject a payload type other than
the fixed constant, then check the first signature entry against the
pre-authentication encoding of `(payloadType, payload)`.  `.error`
covers every exception the Python code can raise (`ValueError` for the
payload type, `IndexError` for an empty signature list,
`InvalidSignature` from the key). -/
def dsse_verify (e : Envelope) (pub : Nat) : Except String Unit :=
  if e.payloadType ≠ PAYLOAD_TYPE then
    .error ("unsupported payloadType: " ++ e.payloadType)
  else
    match e.signatures with
    | [] => .error ("list index out of range")
    | entry :: _ =>
        if ed25519_verify pub entry.sig (pae e.payloadType e.payload) then .ok ()
        else .error ("signature verification failed")

/-! ### Statement schema validation

Models `validate_statement`: running `Draft202012Validator(STATEMENT_SCHEMA)`
over the statement and collecting one message per violation.  Only the
structure of the error list (in particular its emptiness) is modelled
faithfully; the exact `jsonschema` message texts are abbreviated, which is
sound because no caller inspects the text of schema errors. -/

/-- The two `_type` literals accepted by the schema pattern
`^https://in-toto\.io/Statement/v(0\.1|1)$`.  Python's `$` also matches
just before a single trailing newline, which the model reproduces. -/
def statementTypeOk (s : String) : Bool :=
  s == "https://in-toto.io/Statement/v0.1" ||
  s == "https://in-toto.io/Statement/v1" ||
  s == "https://in-toto.io/Statement/v0.1\n" ||
  s == "https://in-toto.io/Statement/v1\n"

/-- The schema pattern `^https://.+` for `predicateType`: the literal
prefix followed by at least one character, which (`.` without `DOTALL`)
must not be a newline. -/
def predicateTypeOk (s : String) : Bool :=
  List.isPrefixOf ("https://".data) s.data &&
  (match s.data.drop 8 with
   | c :: _ => c != Char.ofNat 10
   | [] => false)

/-- Schema check of one element of the `subject` array: it must be an
object, its `name` is required and must be a non-empty string, and its
`digest`, when present, must be an object. -/
def subjectItemErrors (j : Json) : List String :=
  match j with
  | .obj kvs =>
      (match lookupJson kvs ("name") with
       | none => ["'name' is a required property @ subject"]
       | some (.str s) => if s = "" then ["name too short @ subject"] else []
       | some _ => ["name is not of type 'string' @ subject"]) ++
      (match lookupJson kvs ("digest") with
       | some (.obj _) => []
       | some _ => ["digest is not of type 'object' @ subject"]
       | none => [])
  | _ => ["subject item is not of type 'object' @ subject"]

/-- The `required` keyword's contribution for one property. -/
def requiredError (k : String) (v : Option Json) : List String :=
  if v.isSome then [] else ["'" ++ k ++ "' is a required property @ "]

/-- The `_type` property checks (`type: string`, then the version
pattern), applied to the looked-up value. -/
def typeFieldErrors : Option Json → List String
  | none => []
  | some (.str s) => if statementTypeOk s then [] else ["_type does not match pattern @ _type"]
  | some _ => ["_type is not of type 'string' @ _type"]

/-- The `subject` property checks (`type: array`, `minItems: 1`, per-item
schema), applied to the looked-up value. -/
def subjectFieldErrors : Option Json → List String
  | none => []
  | some (.arr items) =>
      (if items.isEmpty then ["subject is too short @ subject"] else []) ++
      items.foldr (fun it acc => subjectItemErrors it ++ acc) []
  | some _ => ["subject is not of type 'array' @ subject"]

/-- The `predicateType` property checks (`type: string`, URL pattern). -/
def predicateTypeFieldErrors : Option Json → List String
  | none => []
  | some (.str s) =>
      if predicateTypeOk s then [] else ["predicateType does not match pattern @ predicateType"]
  | some _ => ["predicateType is not of type 'string' @ predicateType"]

/-- The `predicate` property check (`type: object`). -/
def predicateFieldErrors : Option Json → List String
  | none => []
  | some (.obj _) => []
  | some _ => ["predicate is not of type 'object' @ predicate"]

/-- Models `validate_statement(statement)`: the error list produced by
validating against `STATEMENT_SCHEMA`.  For a non-object instance the
only applicable keyword is `type`; for objects, `required` plus the
per-property checks apply, and `additionalProperties: true` adds none. -/
def validate_statement (j : Json) : List String :=
  match j with
  | .obj kvs =>
      requiredError ("_type") (lookupJson kvs ("_type")) ++
      requiredError ("subject") (lookupJson kvs ("subject")) ++
      requiredError ("predicateType") (lookupJson kvs ("predicateType")) ++
      requiredError ("predicate") (lookupJson kvs ("predicate")) ++
      typeFieldErrors (lookupJson kvs ("_type")) ++
      subjectFieldErrors (lookupJson kvs ("subject")) ++
      predicateTypeFieldErrors (lookupJson kvs ("predicateType")) ++
      predicateFieldErrors (lookupJson kvs ("predicate"))
  | _ => ["statement is not of type 'object' @ "]

/-! ### Filesystem oracle and path helpers

Paths are lists of components measured from the filesystem root.  The
behaviour of the operating system — which paths are symlinks (in the
`lstat` sense, intermediate symlinks being followed), how `Path.resolve()`
resolves a path, which paths exist, and what `sha256_cached` returns for
a file — is supplied by an oracle so that theorems quantify over every
filesystem state. -/

/-- Outcome of `_sha256(target)` (i.e. `sha256_cached`): a hex digest, a
`HashRaceError`, or a `FileNotFoundError`. -/
inductive HashOutcome where
  | ok (hex : String)
  | race
  | notFound

/-- The filesystem oracle. -/
structure FSEnv where
  isSymlink : List String → Bool
  resolve : List String → List String
  pathExists : List String → Bool
  hash : List String → HashOutcome

/-- Splitting a character list at `/` separators. -/
def splitSlash : List Char → List (List Char)
  | [] => [[]]
  | c :: rest =>
      if c = '/' then [] :: splitSlash rest
      else
        match splitSlash rest with
        | [] => [[c]]
        | g :: gs => (c :: g) :: gs

/-- The relative-path components of a string, as `PurePosixPath` parses
them: split on `/`, dropping empty components and `.`. -/
def pathComponents (s : String) : List String :=
  ((splitSlash s.data).map (fun g => String.mk g)).filter (fun c => c ≠ "" && c ≠ ".")

/-- Whether a string starts with the given character. -/
def strStarts (s : String) (c : Char) : Bool :=
  match s.data with
  | [] => false
  | a :: _ => a == c

/-- The test `Path(name).is_absolute() or name.startswith(("~", "/", "\\"))`
used by `fill_and_check_digests` (on POSIX, `is_absolute` means a leading
`/`, which the tuple already covers). -/
def absOrHome (s : String) : Bool :=
  strStarts s '/' || strStarts s '~' || strStarts s '\\'

/-- The remote-material test `re.match(r"^[a-z]+://", name)`: one or more
lowercase ASCII letters followed by the literal `://`, anchored at the
start. -/
def isRemote (s : String) : Bool :=
  let p := s.data.takeWhile (fun c => decide ('a' ≤ c) && decide (c ≤ 'z'))
  !p.isEmpty && List.isPrefixOf ([':', '/', '/']) (s.data.drop p.length)

/-- Whether `pat` occurs as a contiguous substring of the second list
(Python's `in` on strings). -/
def isSubstr (pat : List Char) : List Char → Bool
  | [] => pat.isEmpty
  | c :: rest => List.isPrefixOf pat (c :: rest) || isSubstr pat rest

/-- Python's `"sha256" in digest` for the container types on which `in`
does not raise: key membership for a dictionary, element equality for a
list, substring for a string; `none` (a `TypeError`) otherwise. -/
def sha256Mem : Json → Option Bool
  | .obj dkvs => some (lookupJson dkvs ("sha256")).isSome
  | .arr xs => some (xs.any (fun j => match j with | .str s => s == "sha256" | _ => false))
  | .str s => some (isSubstr ("sha256".data) s.data)
  | _ => none

/-- ASCII lowering, modelling `str.lower()` on the hex digest strings the
tool compares (the full Unicode lowering of Python coincides with this on
ASCII). -/
def asciiLower (s : String) : String :=
  String.mk (s.data.map (fun c =>
    if decide ('A' ≤ c) && decide (c ≤ 'Z') then Char.ofNat (c.toNat + 32) else c))

/-! ### Digest filling and checking

Models `fill_and_check_digests(base_dir, statement)`: each subject and
material is path-checked and its digest computed or compared, errors
accumulating into one list while the statement's digests are filled in
place.  The result is the pair of the error list and the updated
statement; `none` models an exception escaping (e.g. `.get` on a
non-dictionary, `Path()` of a non-string, `.lower()` on a non-string). -/

/-- Processing of one element of the `subject` array. -/
def subjectStep (env : FSEnv) (base : List String) : Json → Option (List String × Json)
  | .obj skvs =>
      match lookupJson skvs ("name") with
      | none => some (["subject missing name"], .obj skvs)
      | some v =>
        if jsonFalsy v then some (["subject missing name"], .obj skvs)
        else
          match v with
          | .str nm =>
            if absOrHome nm then some (["absolute or home path not allowed: " ++ nm], .obj skvs)
            else
              let skvs₁ := setdefaultObj skvs ("digest") (.obj [])
              let dval := (lookupJson skvs₁ ("digest")).getD (.obj [])
              let candidate := base ++ pathComponents nm
              if env.isSymlink candidate then some (["symlink not allowed: " ++ nm], .obj skvs₁)
              else
                let target := env.resolve candidate
                if ¬ (List.isPrefixOf base target) then
                  some (["path escapes base_dir: " ++ nm], .obj skvs₁)
                else if ¬ env.pathExists target then
                  some (["subject path not found: " ++ nm], .obj skvs₁)
                else
                  match env.hash target with
                  | .race => some (["file changed during hashing: " ++ nm], .obj skvs₁)
                  | .notFound => some (["subject path not found: " ++ nm], .obj skvs₁)
                  | .ok actual =>
                      match dval with
                      | .obj dkvs =>
                          match lookupJson dkvs ("sha256") with
                          | some (.str dstr) =>
                              if asciiLower dstr ≠ actual then
                                some (["subject digest mismatch for " ++ nm], .obj skvs₁)
                              else some ([], .obj skvs₁)
                          | some _ => none
                          | none =>
                              some ([], .obj (objSet skvs₁ ("digest")
                                (.obj (dkvs ++ [(("sha256" : String), .str actual)]))))
                      | _ => none
          | _ => none
  | _ => none

/-- The value of `material.get("name") or material.get("uri")` (without
the final falsy test): the `name` value if present and truthy, otherwise
the `uri` value. -/
def materialName (mkvs : List (String × Json)) : Option Json :=
  match lookupJson mkvs ("name") with
  | some v => if jsonFalsy v then lookupJson mkvs ("uri") else some v
  | none => lookupJson mkvs ("uri")

/-- The in-place normalization a material undergoes before its checks:
`material["name"] = name`, `material.pop("uri", None)`,
`material.setdefault("digest", \x7b\x7d)`. -/
def materialNormalized (mkvs : List (String × Json)) (v : Json) : List (String × Json) :=
  setdefaultObj (objRemove (objAssign mkvs ("name") v) ("uri")) ("digest") (.obj [])

/-- Processing of one element of the `predicate.materials` array. -/
def materialStep (env : FSEnv) (base : List String) : Json → Option (List String × Json)
  | .obj mkvs =>
      match materialName mkvs with
      | none => some (["material missing name"], .obj mkvs)
      | some v =>
        if jsonFalsy v then some (["material missing name"], .obj mkvs)
        else
          let mkvs₂ := materialNormalized mkvs v
          let dval := (lookupJson mkvs₂ ("digest")).getD (.obj [])
          match v with
          | .str nm =>
            if isRemote nm then
              match sha256Mem dval with
              | none => none
              | some true => some ([], .obj mkvs₂)
              | some false => some (["remote material requires digest: " ++ nm], .obj mkvs₂)
            else if absOrHome nm then
              some (["absolute or home path not allowed: " ++ nm], .obj mkvs₂)
            else
              let candidate := base ++ pathComponents nm
              if env.isSymlink candidate then some (["symlink not allowed: " ++ nm], .obj mkvs₂)
              else
                let target := env.resolve candidate
                if ¬ (List.isPrefixOf base target) then
                  some (["path escapes base_dir: " ++ nm], .obj mkvs₂)
                else if ¬ env.pathExists target then
                  some (["material path not found: " ++ nm], .obj mkvs₂)
                else
                  match env.hash target with
                  | .race => some (["file changed during hashing: " ++ nm], .obj mkvs₂)
                  | .notFound => some (["material path not found: " ++ nm], .obj mkvs₂)
                  | .ok actual =>
                      match dval with
                      | .obj dkvs =>
                          match lookupJson dkvs ("sha256") with
                          | some (.str dstr) =>
                              if asciiLower dstr ≠ actual then
                                some (["materials digest mismatch for " ++ nm], .obj mkvs₂)
                              else some ([], .obj mkvs₂)
                          | some _ => none
                          | none =>
                              some ([], .obj (objSet mkvs₂ ("digest")
                                (.obj (dkvs ++ [(("sha256" : String), .str actual)]))))
                      | _ => none
          | _ => none
  | _ => none

/-- Iterates a per-item step over an array, concatenating error lists and
collecting the updated items. -/
def stepList (step : Json → Option (List String × Json)) : List Json → Option (List String × List Json)
  | [] => some ([], [])
  | x :: rest => do
      let (e, x') ← step x
      let (es, rest') ← stepList step rest
      return (e ++ es, x' :: rest')

/-- The subject loop of `fill_and_check_digests`.  The `subject` value
defaults to `[]` when absent; iterating a truthy non-list raises
(`none`), while an empty string or dictionary iterates zero times.
Element mutations are written back into the statement. -/
def fillSubjects (env : FSEnv) (base : List String) (stmt : List (String × Json)) :
    Option (List String × List (String × Json)) :=
  match lookupJson stmt ("subject") with
  | none => some ([], stmt)
  | some (.arr items) => do
      let (es, items') ← stepList (subjectStep env base) items
      return (es, objSet stmt ("subject") (.arr items'))
  | some (.str s) => if s = "" then some ([], stmt) else none
  | some (.obj kv) => if kv.isEmpty then some ([], stmt) else none
  | some _ => none

/-- The materials loop of `fill_and_check_digests`.  The materials come
from `statement.get("predicate", \x7b\x7d).get("materials", []) or []`, so a
falsy materials value degrades to no iterations while `.get` on a
non-dictionary predicate raises. -/
def fillMaterials (env : FSEnv) (base : List String) (stmt : List (String × Json)) :
    Option (List String × List (String × Json)) :=
  match lookupJson stmt ("predicate") with
  | none => some ([], stmt)
  | some (.obj pkvs) =>
      match lookupJson pkvs ("materials") with
      | none => some ([], stmt)
      | some (.arr mats) => do
          let (es, mats') ← stepList (materialStep env base) mats
          return (es, objSet stmt ("predicate") (.obj (objSet pkvs ("materials") (.arr mats'))))
      | some w => if jsonFalsy w then some ([], stmt) else none
  | some _ => none

/-- Models `fill_and_check_digests(base_dir, statement)`: the subject
loop, then the materials loop, errors concatenated, mutations threaded
through. -/
def fill_and_check_digests (env : FSEnv) (base : List String) : Json → Option (List String × Json)
  | .obj stmt => do
      let (subjErrs, stmt₁) ← fillSubjects env base stmt
      let (matErrs, stmt₂) ← fillMaterials env base stmt₁
      return (subjErrs ++ matErrs, .obj stmt₂)
  | _ => none

/-! ### The `verify` command -/

/-- Python's `needle in s` substring test on strings. -/
def strContains (s needle : String) : Bool := isSubstr needle.data s.data

/-- The JSON summary `cmd_verify` prints, together with its exit code. -/
structure VerifyResult where
  signature_ok : Bool
  schema_ok : Bool
  digest_ok : Bool
  statement_ok : Bool
  errors : List String
  error_code : String
  exit : Nat
deriving DecidableEq

/-- Assembly of `cmd_verify`'s outputs from the signature outcome and the
three error lists, exactly as lines 399-443 of `provtools.py` compute
them: `schema_ok`/`digest_ok` require the signature to have verified and
the corresponding error list to be empty, the combined `errors` list is
the concatenation, the coarse `error_code` is chosen by priority
(signature, then schema, then the digest sub-cases), and the exit code is
0 only when all three checks pass. -/
def buildVerifyResult (signature_ok : Bool)
    (sig_errors schema_errors digest_errors : List String) : VerifyResult :=
  let errors := sig_errors ++ schema_errors ++ digest_errors
  let schema_ok := signature_ok && schema_errors.isEmpty
  let digest_ok := signature_ok && digest_errors.isEmpty
  let error_code :=
    if signature_ok && schema_ok && digest_ok then "OK"
    else if !signature_ok then "SIG_INVALID"
    else if !schema_errors.isEmpty then "SCHEMA_INVALID"
    else if !digest_errors.isEmpty then
      if digest_errors.any (fun s => strContains s ("file changed during hashing")) then "HASH_RACE"
      else if digest_errors.any (fun s => strContains s ("path") && strContains s ("allowed")) then "PATH_FORBIDDEN"
      else if digest_errors.any (fun s => strContains s ("digest mismatch")) then "DIGEST_MISMATCH"
      else "DIGEST_INVALID"
    else "UNKNOWN_ERROR"
  { signature_ok := signature_ok
    schema_ok := schema_ok
    digest_ok := digest_ok
    statement_ok := signature_ok && errors.isEmpty
    errors := errors
    error_code := error_code
    exit := if signature_ok && schema_ok && digest_ok then 0 else 1 }

/-- Models `cmd_verify(args)`.  The `decode` parameter stands for
`json.loads(base64.b64decode(payload).decode())`; a faithful decoder
satisfies `decode (utf8Encode (renderJson j)) = some j` and returns
`none` on bytes that are not UTF-8 JSON.  The whole command returns
`none` when an exception escapes: the only uncaught ones are a payload
that fails to decode after a *successful* signature check (line 400 sits
outside the `try`) and an exception out of `fill_and_check_digests`. -/
def cmd_verify (decode : List Nat → Option Json) (env : FSEnv) (base : List String)
    (e : Envelope) (pub : Nat) : Option VerifyResult :=
  match dsse_verify e pub with
  | .error msg => some (buildVerifyResult false [msg] [] [])
  | .ok _ =>
      match decode e.payload with
      | none => none
      | some stmt =>
          let schema_errors := validate_statement stmt
          match (if schema_errors.isEmpty then (fill_and_check_digests env base stmt).map Prod.fst
                 else some []) with
          | none => none
          | some digest_errors => some (buildVerifyResult true [] schema_errors digest_errors)

/-! ### Runtime capability guard

Models `runtime_guard.py`.  Paths are again component lists from the
filesystem root; the same `FSEnv` oracle supplies `is_symlink` (with
`lstat` semantics) and `Path.resolve()`. -/

/-- Fuel-indexed glob matcher (structural recursion; every recursive call
shrinks `ps.length + cs.length`, so any fuel above that bound is enough
and the fuel-exhaustion branch is unreachable from `globMatch`). -/
def globMatchF : Nat → List Char → List Char → Bool
  | 0, _, _ => false
  | _ + 1, [], [] => true
  | _ + 1, [], _ :: _ => false
  | f + 1, '*' :: ps', cs =>
      globMatchF f ps' cs ||
        (match cs with
         | [] => false
         | _ :: cs' => globMatchF f ('*' :: ps') cs')
  | f + 1, '?' :: ps', _ :: cs' => globMatchF f ps' cs'
  | _ + 1, '?' :: _, [] => false
  | f + 1, p :: ps', c :: cs' => p == c && globMatchF f ps' cs'
  | _ + 1, _ :: _, [] => false

/-- Glob matching as `fnmatch.fnmatch` translates patterns: `*` matches
any character sequence (including `/`), `?` any single character, and
other characters literally.  The `[...]` character classes of `fnmatch`
are not used by any scope in the repository and are not modelled. -/
def globMatch (ps cs : List Char) : Bool :=
  globMatchF (ps.length + cs.length + 1) ps cs

/-- The string form of `target.relative_to(base_dir)` with backslashes
replaced by `/`, as `_match_scopes` computes it (`relative_to` of the
path itself is `.`). -/
def relPathStr (base target : List String) : String :=
  match target.drop base.length with
  | [] => "."
  | parts => String.mk ((String.intercalate "/" parts).data.map
      (fun c => if c = '\\' then '/' else c))

/-- The file-scope half of the capability guard: the resolved sandbox
root and the configured glob patterns. -/
structure FileScope where
  base_dir : List String
  write_scopes : List String

/-- Models `FileScope.__init__(base_dir, write_scopes)`: resolves the
base directory and rejects an empty scope list with `ScopeError`. -/
def FileScope.init (env : FSEnv) (base_dir : List String) (write_scopes : List String) :
    Except String FileScope :=
  if write_scopes = [] then .error ("No write scopes configured")
  else .ok ⟨env.resolve base_dir, write_scopes⟩

/-- Models `FileScope._match_scopes(target)`. -/
def FileScope.match_scopes (fs : FileScope) (target : List String) : Bool :=
  fs.write_scopes.any (fun pat => globMatch pat.data (relPathStr fs.base_dir target).data)

/-- The symlink walk at the end of `_normalize_target`: starting from the
resolved candidate, reject if the current path is a symlink, stop at the
sandbox root, else move to the parent.  The fuel argument makes the
recursion structural; `_normalize_target` passes one more than the
component count of the start path, which is enough to reach `base`
whenever `base` is a prefix of the start (guaranteed by the preceding
`relative_to` check), so the fuel-exhaustion branch — which models the
Python loop running forever if that invariant were broken — is never
taken. -/
def walkCheck (env : FSEnv) (base : List String) (path : String) :
    Nat → List String → Except String Unit
  | 0, _ => .error ("symlink walk failed to terminate")
  | fuel + 1, current =>
      if env.isSymlink current then .error ("symlink not allowed in path: " ++ path)
      else if current = base then .ok ()
      else walkCheck env base path fuel current.dropLast

/-- Models `FileScope._normalize_target(path)`: reject tilde and absolute
paths, join onto the sandbox root, reject a symlinked candidate before
and after resolution, reject escape from the root, then walk every
component from the resolved target up to the root rejecting symlinks.
All rejections are `ScopeError`. -/
def FileScope.normalize_target (env : FSEnv) (fs : FileScope) (path : String) :
    Except String (List String) :=
  if strStarts path '~' then .error ("tilde paths not allowed: " ++ path)
  else if strStarts path '/' then .error ("absolute paths not allowed: " ++ path)
  else
    let candidate := fs.base_dir ++ pathComponents path
    if env.isSymlink candidate then .error ("symlink not allowed in path: " ++ path)
    else
      let resolved := env.resolve candidate
      if env.isSymlink resolved then .error ("symlink not allowed in path: " ++ path)
      else if ¬ (List.isPrefixOf fs.base_dir resolved) then
        .error ("path escapes base_dir: " ++ path)
      else
        match walkCheck env fs.base_dir path (resolved.length + 1) resolved with
        | .error e => .error e
        | .ok _ => .ok resolved

/-- Models `FileScope.assert_write_allowed(path)`: normalize, then require
at least one configured glob to match the root-relative path. -/
def FileScope.assert_write_allowed (env : FSEnv) (fs : FileScope) (path : String) :
    Except String (List String) :=
  match FileScope.normalize_target env fs path with
  | .error e => .error e
  | .ok target =>
      if ¬ (FileScope.match_scopes fs target) then
        .error ("write not allowed by fs_write_scopes: " ++ path)
      else .ok target

/-- The endpoint half of the guard.  Python stores `set(allowed)`; the
model keeps the list, whose emptiness coincides with the set's. -/
structure MCPGuard where
  allowed : List String

/-- Models `MCPGuard.__init__(allowed)`: rejects an empty endpoint set
with `ScopeError`. -/
def MCPGuard.init (allowed : List String) : Except String MCPGuard :=
  if allowed = [] then .error ("No MCP endpoints allowed") else .ok ⟨allowed⟩

/-- Models `MCPGuard.assert_allowed(endpoint)`. -/
def MCPGuard.assert_allowed (g : MCPGuard) (endpoint : String) : Except String Unit :=
  if g.allowed.contains endpoint then .ok ()
  else .error ("MCP endpoint not allowed: " ++ endpoint)

/-- The runtime guard pairing the two halves. -/
structure RuntimeGuard where
  fs : FileScope
  mcp : MCPGuard

/-- Models `RuntimeGuard.from_alou(alou_path, base_dir)` after the ALOU
front-matter has been parsed: `mcp_allow` and `fs_write_scopes` are the
values read from the front-matter (defaulting to `[]` when absent — the
Python falsy test on these lists is emptiness).  A `ValueError` rejects
missing capabilities before the two constructors run their own checks. -/
def RuntimeGuard.from_alou (env : FSEnv) (base_dir : List String)
    (mcp_allow fs_write_scopes : List String) : Except String RuntimeGuard :=
  if mcp_allow = [] ∨ fs_write_scopes = [] then
    .error ("ALOU missing mcp_allow or fs_write_scopes")
  else do
    let fs ← FileScope.init env base_dir fs_write_scopes
    let g ← MCPGuard.init mcp_allow
    return ⟨fs, g⟩

/-! ### The race-checked SHA-256 cache

Models `sha256_cached` from `provtools_cache.py` for one invocation on
one file.  The three `stat` snapshots (before `os.open`, right after the
open, and after reading to EOF) and the digest of the bytes actually read
are supplied by a `ReadEnv`; the relevant `_CACHE_DATA` record for the
file's key is passed in explicitly.  The `FileNotFoundError` of the
pre-stat and the `O_NOFOLLOW`/`ELOOP` handling around `os.open` sit
before the modelled fragment and are independent of the claims. -/

/-- The fields of `os.stat_result` that `_meta_from_stat` reads. -/
structure StatMeta where
  dev : Nat
  ino : Nat
  size : Nat
  mtimeNs : Nat
deriving DecidableEq

/-- Models `_meta_from_stat(stat)`, the identity string
`f"{dev}:{ino}:{size}:{mtime_ns}"`. -/
def meta_from_stat (st : StatMeta) : String :=
  toString st.dev ++ ":" ++ toString st.ino ++ ":" ++ toString st.size ++ ":" ++ toString st.mtimeNs

/-- One persisted cache entry: identity string and digest. -/
structure CacheRecord where
  meta : String
  sha256 : String
deriving DecidableEq

/-- The observations one run of `sha256_cached` makes on the file. -/
structure ReadEnv where
  statPre : StatMeta
  statStart : StatMeta
  statEnd : StatMeta
  contentSha : String

/-- Outcome of `sha256_cached`: a digest together with the record written
back to the cache, or a `HashRaceError`. -/
inductive CacheResult where
  | ok (hex : String) (record : CacheRecord)
  | hashRace
deriving DecidableEq

/-- The read path of `sha256_cached` (cache miss): hash the file contents
between two `fstat` snapshots, then raise `HashRaceError` unless the
post-read identity equals the in-read identity and the in-read identity
equals the pre-open identity.  The digest of a read whose identities
disagree is computed but discarded. -/
def sha256Read (env : ReadEnv) : CacheResult :=
  let meta_pre := meta_from_stat env.statPre
  if meta_from_stat env.statStart ≠ meta_from_stat env.statEnd then .hashRace
  else if meta_from_stat env.statStart ≠ meta_pre then .hashRace
  else .ok env.contentSha ⟨meta_from_stat env.statStart, env.contentSha⟩

/-- Models `sha256_cached(path)`: return the cached digest when the stored
identity matches the pre-open identity, otherwise read and race-check. -/
def sha256_cached (env : ReadEnv) (record : Option CacheRecord) : CacheResult :=
  match record with
  | some r =>
      if r.meta = meta_from_stat env.statPre then .ok r.sha256 r
      else sha256Read env
  | none => sha256Read env

/-! ### Concrete instances used by witnesses and counterexamples -/

/-- A filesystem with no symlinks and no files, `resolve` the identity
(no `..` components or links are ever handed to it by the inputs below). -/
def emptyFS : FSEnv :=
  { isSymlink := fun _ => false
    resolve := fun p => p
    pathExists := fun _ => false
    hash := fun _ => .notFound }

/-- Filesystem for the round-trip witness: the sandbox `/base` contains
one regular file `doc.md` whose SHA-256 is `ab12`. -/
def c1Env : FSEnv :=
  { isSymlink := fun _ => false
    resolve := fun p => p
    pathExists := fun p => p == [("base" : String), ("doc.md" : String)]
    hash := fun p =>
      if p == [("base" : String), ("doc.md" : String)] then .ok ("ab12" : String) else .notFound }

/-- A subject whose digest matches the file contents in `c1Env`. -/
def c1Subject : Json :=
  .obj [(("name" : String), .str "doc.md"),
        (("digest" : String), .obj [(("sha256" : String), .str "ab12")])]

/-- A schema-valid statement whose digests match `c1Env`. -/
def c1Stmt : List (String × Json) :=
  [(("_type" : String), .str "https://in-toto.io/Statement/v1"),
   (("subject" : String), .arr [c1Subject]),
   (("predicateType" : String), .str "https://example.org/p"),
   (("predicate" : String), .obj [])]

/-- A `json.loads` oracle that is faithful at the one payload the
round-trip witness decodes. -/
def c1Decode : List Nat → Option Json :=
  fun bs => if bs == signedPayload c1Stmt then some (.obj (canonicalizeStatement c1Stmt)) else none

/-- The guard configuration of the C2 counterexample: sandbox root
`/base`, one glob scope matching everything. -/
def c2Fs : FileScope := ⟨[("base" : String)], [("*" : String)]⟩

/-- The filesystem of the C2 counterexample: `/base/link` is a symbolic
link to the directory `/base/dir` (inside the sandbox), and the final
target `/base/dir/file` does not exist.  `lstat` of `/base/link/file`
follows the intermediate link, so that path is not itself a symlink. -/
def c2Env : FSEnv :=
  { isSymlink := fun p => p == [("base" : String), ("link" : String)]
    resolve := fun p =>
      if p == [("base" : String), ("link" : String), ("file" : String)] then
        [("base" : String), ("dir" : String), ("file" : String)]
      else if p == [("base" : String), ("link" : String)] then
        [("base" : String), ("dir" : String)]
      else p
    pathExists := fun _ => false
    hash := fun _ => .notFound }

/-- Filesystem snapshot for the symlink-walk witness: `/base/sub` is
observed as a symlink by the walk.  (`resolve` returned the unchanged
path from its earlier snapshot — the situation the walk defends against,
a link created between resolution and the walk.) -/
def c2WalkEnv : FSEnv :=
  { isSymlink := fun p => p == [("base" : String), ("sub" : String)]
    resolve := fun p => p
    pathExists := fun _ => false
    hash := fun _ => .notFound }

/-- Filesystem for the escape witness: `/base/../evil.md` resolves to
`/evil.md`, outside the sandbox root. -/
def c2EscEnv : FSEnv :=
  { isSymlink := fun _ => false
    resolve := fun p =>
      if p == [("base" : String), (".." : String), ("evil.md" : String)] then
        [("evil.md" : String)]
      else p
    pathExists := fun _ => false
    hash := fun _ => .notFound }

/-- A decoder for payload bytes that are not valid UTF-8 JSON (such as
the lone byte `0xFF` below): `json.loads` has no value there. -/
def decodeNone : List Nat → Option Json := fun _ => none

/-- An envelope whose signature (by key pair 5) is valid over a payload
that is not decodable text: byte `0xFF` alone is not UTF-8. -/
def c4CrashEnvelope : Envelope :=
  { payloadType := PAYLOAD_TYPE
    payload := [255]
    signatures := [⟨("k" : String), ed25519_sign 5 (pae PAYLOAD_TYPE [255])⟩] }

/-- An envelope whose only signature does not verify under key pair 5. -/
def c4BadSigEnvelope : Envelope :=
  { payloadType := PAYLOAD_TYPE
    payload := [1]
    signatures := [⟨("k" : String), ⟨6, [9]⟩⟩] }

/-- The verify result for the bad-signature witness. -/
def c4SigFailRes : VerifyResult :=
  buildVerifyResult false [("signature verification failed" : String)] [] []

/-- Two subjects sharing the name `a` but with different digests. -/
def c5SubA : Json :=
  .obj [(("name" : String), .str "a"),
        (("digest" : String), .obj [(("sha256" : String), .str "11")])]

/-- The second such subject. -/
def c5SubB : Json :=
  .obj [(("name" : String), .str "a"),
        (("digest" : String), .obj [(("sha256" : String), .str "22")])]

/-- A statement listing the duplicate-name subjects in one order. -/
def c5Stmt1 : List (String × Json) :=
  [(("_type" : String), .str "https://in-toto.io/Statement/v1"),
   (("subject" : String), .arr [c5SubA, c5SubB]),
   (("predicateType" : String), .str "https://example.org/p"),
   (("predicate" : String), .obj [])]

/-- The same statement with the subject list permuted. -/
def c5Stmt2 : List (String × Json) := objSet c5Stmt1 ("subject") (.arr [c5SubB, c5SubA])

/-- Distinct-name subjects for the amended determinism witness. -/
def c5wS1 : Json := .obj [(("name" : String), .str "b")]

/-- Second distinct-name subject. -/
def c5wS2 : Json := .obj [(("name" : String), .str "a")]

/-- Distinct-name materials for the amended determinism witness. -/
def c5wM1 : Json :=
  .obj [(("name" : String), .str "n"),
        (("digest" : String), .obj [(("sha256" : String), .str "dd")])]

/-- Second distinct-name material. -/
def c5wM2 : Json := .obj [(("name" : String), .str "m")]

/-- Predicate with a materials list for the determinism witness. -/
def c5wPred : List (String × Json) := [(("materials" : String), .arr [c5wM1, c5wM2])]

/-- Statement for the determinism witness. -/
def c5wStmt : List (String × Json) :=
  [(("_type" : String), .str "https://in-toto.io/Statement/v1"),
   (("subject" : String), .arr [c5wS1, c5wS2]),
   (("predicate" : String), .obj c5wPred)]

/-- A statement whose only subject has a remote (URI-scheme) name with a
digest pre-supplied — and which `fill_and_check_digests` nevertheless
rejects, because the remote exemption exists only for materials. -/
def c6RemoteSubjStmt : List (String × Json) :=
  [(("_type" : String), .str "https://in-toto.io/Statement/v0.1"),
   (("subject" : String), .arr
     [.obj [(("name" : String), .str "https://example.org/spec"),
            (("digest" : String), .obj [(("sha256" : String), .str "ab")])]]),
   (("predicateType" : String), .str "https://example.org/p"),
   (("predicate" : String), .obj [])]

/-- A remote material with a pre-supplied digest. -/
def c6Mat1 : Json :=
  .obj [(("name" : String), .str "https://example.org/spec"),
        (("digest" : String), .obj [(("sha256" : String), .str "ab")])]

/-- A remote material (under the legacy `uri` key) without a digest. -/
def c6Mat2 : Json := .obj [(("uri" : String), .str "https://example.org/spec")]

/-- Observations of a read during which the file changed: the pre-open
identity (mtime 4) differs from the post-read identity (mtime 5). -/
def c7Env : ReadEnv :=
  { statPre := ⟨1, 2, 3, 4⟩
    statStart := ⟨1, 2, 3, 5⟩
    statEnd := ⟨1, 2, 3, 5⟩
    contentSha := ("aa" : String) }

/-- A payload type other than the fixed constant. -/
def c9PType : String := "application/x-other"

/-- A signature that is valid over the PAE of that payload type. -/
def c9Sig : Sig := ed25519_sign 7 (pae c9PType [1, 2])

/-- An envelope with two signature entries whose first signature verifies
the PAE of its (non-standard) payload type. -/
def c9Envelope : Envelope :=
  { payloadType := c9PType
    payload := [1, 2]
    signatures := [⟨("k" : String), c9Sig⟩, ⟨("k2" : String), ⟨0, []⟩⟩] }

/-- A schema-invalid statement (missing required properties). -/
def c10Stmt : Json := .obj [(("_type" : String), .str "x")]

/-- A decoder faithful at the C10 payload. -/
def c10Decode : List Nat → Option Json :=
  fun bs => if bs == [7] then some c10Stmt else none

/-- An envelope signed (by key pair 3) over the C10 payload. -/
def c10Envelope : Envelope :=
  { payloadType := PAYLOAD_TYPE
    payload := [7]
    signatures := [⟨("k" : String), ed25519_sign 3 (pae PAYLOAD_TYPE [7])⟩] }

/-- A filesystem radically different from `emptyFS`, used to exhibit that
the digest re-check is skipped: every path exists, everything hashes. -/
def c10AltEnv : FSEnv :=
  { isSymlink := fun _ => false
    resolve := fun p => p
    pathExists := fun _ => true
    hash := fun _ => .ok ("zz" : String) }

/-! ## Helper lemmas -/

theorem lexLe_total : ∀ as bs : List Char, lexLe as bs = true ∨ lexLe bs as = true := by
  intro as
  induction as with
  | nil => intro bs; left; rfl
  | cons a as ih =>
      intro bs
      cases bs with
      | nil => right; rfl
      | cons b bs =>
          rcases lt_trichotomy a b with h | h | h
          · left; simp [lexLe, h]
          · subst h
            rcases ih bs with h' | h'
            · left; simp [lexLe, h']
            · right; simp [lexLe, h']
          · right; simp [lexLe, h]

theorem lexLe_trans : ∀ as bs cs : List Char,
    lexLe as bs = true → lexLe bs cs = true → lexLe as cs = true := by
  intro as
  induction as with
  | nil => intro bs cs _ _; rfl
  | cons a as ih =>
      intro bs cs hab hbc
      cases bs with
      | nil => simp [lexLe] at hab
      | cons b bs =>
          cases cs with
          | nil => simp [lexLe] at hbc
          | cons c cs =>
              simp only [lexLe, Bool.or_eq_true, Bool.and_eq_true, decide_eq_true_eq,
                beq_iff_eq] at hab hbc ⊢
              rcases hab with hab | ⟨hab, hab'⟩
              · rcases hbc with hbc | ⟨hbc, _⟩
                · exact Or.inl (lt_trans hab hbc)
                · exact Or.inl (hbc ▸ hab)
              · subst hab
                rcases hbc with hbc | ⟨hbc, hbc'⟩
                · exact Or.inl hbc
                · exact Or.inr ⟨hbc, ih bs cs hab' hbc'⟩

theorem lexLe_antisymm : ∀ as bs : List Char,
    lexLe as bs = true → lexLe bs as = true → as = bs := by
  intro as
  induction as with
  | nil =>
      intro bs _ hba
      cases bs with
      | nil => rfl
      | cons b bs => simp [lexLe] at hba
  | cons a as ih =>
      intro bs hab hba
      cases bs with
      | nil => simp [lexLe] at hab
      | cons b bs =>
          simp only [lexLe, Bool.or_eq_true, Bool.and_eq_true, decide_eq_true_eq,
            beq_iff_eq] at hab hba
          rcases hab with hab | ⟨hab, hab'⟩
          · rcases hba with hba | ⟨hba, _⟩
            · exact absurd hba (lt_asymm hab)
            · exact absurd (hba ▸ hab) (lt_irrefl a)
          · subst hab
            rcases hba with hba | ⟨_, hba'⟩
            · exact absurd hba (lt_irrefl a)
            · rw [ih bs hab' hba']

theorem strLe_total (s t : String) : strLe s t = true ∨ strLe t s = true :=
  lexLe_total s.data t.data

theorem strLe_trans {s t u : String} (h₁ : strLe s t = true) (h₂ : strLe t u = true) :
    strLe s u = true :=
  lexLe_trans s.data t.data u.data h₁ h₂

theorem strLe_antisymm {s t : String} (h₁ : strLe s t = true) (h₂ : strLe t s = true) :
    s = t := by
  have h := lexLe_antisymm s.data t.data h₁ h₂
  calc s = String.mk s.data := rfl
    _ = String.mk t.data := by rw [h]
    _ = t := rfl

theorem sorted_perm_eq {α : Type} (key : α → String) :
    ∀ l₁ l₂ : List α, l₁.Perm l₂ →
      l₁.Pairwise (fun a b => strLe (key a) (key b) = true) →
      l₂.Pairwise (fun a b => strLe (key a) (key b) = true) →
      (l₁.map key).Nodup → l₁ = l₂ := by
  intro l₁
  induction l₁ with
  | nil => intro l₂ hp _ _ _; exact hp.nil_eq
  | cons a t₁ ih =>
      intro l₂ hp hs₁ hs₂ hnd
      cases l₂ with
      | nil => exact absurd hp.symm.nil_eq (by simp)
      | cons b t₂ =>
          rw [List.map_cons, List.nodup_cons] at hnd
          by_cases hab : a = b
          · subst hab
            rw [ih t₂ hp.cons_inv (List.pairwise_cons.mp hs₁).2
                  (List.pairwise_cons.mp hs₂).2 hnd.2]
          · exfalso
            have hamem : a ∈ t₂ := by
              have : a ∈ b :: t₂ := hp.mem_iff.mp (List.mem_cons_self a t₁)
              rcases List.mem_cons.mp this with h | h
              · exact absurd h hab
              · exact h
            have hbmem : b ∈ t₁ := by
              have : b ∈ a :: t₁ := hp.symm.mem_iff.mp (List.mem_cons_self b t₂)
              rcases List.mem_cons.mp this with h | h
              · exact absurd h.symm hab
              · exact h
            have h₁ : strLe (key a) (key b) = true :=
              (List.pairwise_cons.mp hs₁).1 b hbmem
            have h₂ : strLe (key b) (key a) = true :=
              (List.pairwise_cons.mp hs₂).1 a hamem
            have hkey : key a = key b := strLe_antisymm h₁ h₂
            exact hnd.1 (hkey ▸ List.mem_map_of_mem key hbmem)

theorem sortByName_perm (l : List Json) : (sortByName l).Perm l :=
  List.perm_insertionSort _ _

theorem sortByName_sorted (l : List Json) :
    (sortByName l).Pairwise (fun a b => strLe (nameKey a) (nameKey b) = true) := by
  have := @List.sorted_insertionSort Json nameLE _
    ⟨fun a b => strLe_total (nameKey a) (nameKey b)⟩
    ⟨fun _ _ _ h₁ h₂ => strLe_trans h₁ h₂⟩ l
  exact this

theorem sortByName_eq_of_perm {l₁ l₂ : List Json} (hp : l₁.Perm l₂)
    (hnd : (l₁.map nameKey).Nodup) : sortByName l₁ = sortByName l₂ := by
  refine sorted_perm_eq nameKey _ _ ?_ (sortByName_sorted l₁) (sortByName_sorted l₂) ?_
  · exact ((sortByName_perm l₁).trans hp).trans (sortByName_perm l₂).symm
  · exact (((sortByName_perm l₁).map nameKey).nodup_iff).mpr hnd

theorem lookupJson_objSet_self {l : List (String × Json)} {k : String} {w : Json}
    (h : lookupJson l k = some w) (v : Json) : lookupJson (objSet l k v) k = some v := by
  induction l with
  | nil => simp [lookupJson] at h
  | cons p rest ih =>
      obtain ⟨k', w'⟩ := p
      by_cases hk : k' = k
      · simp [lookupJson, objSet, hk]
      · simp only [lookupJson, objSet, if_neg hk] at h ⊢
        exact ih h

theorem lookupJson_objSet_ne {l : List (String × Json)} {k k' : String} (h : k' ≠ k)
    (v : Json) : lookupJson (objSet l k v) k' = lookupJson l k' := by
  induction l with
  | nil => rfl
  | cons p rest ih =>
      obtain ⟨k₀, w⟩ := p
      by_cases hk : k₀ = k
      · subst hk
        have hne : k₀ ≠ k' := fun hh => h hh.symm
        simp [objSet, lookupJson, hne]
      · by_cases hk' : k₀ = k'
        · simp [objSet, lookupJson, hk, hk', h]
        · simp [objSet, lookupJson, hk, hk', ih]

theorem objSet_same {l : List (String × Json)} {k : String} {v : Json}
    (h : lookupJson l k = some v) : objSet l k v = l := by
  induction l with
  | nil => rfl
  | cons p rest ih =>
      obtain ⟨k₀, w⟩ := p
      by_cases hk : k₀ = k
      · simp only [lookupJson, if_pos hk] at h
        injection h with hwv
        simp [objSet, hk, hwv]
      · simp only [lookupJson, if_neg hk] at h
        simp [objSet, hk, ih h]

theorem objSet_objSet (l : List (String × Json)) (k : String) (v w : Json) :
    objSet (objSet l k v) k w = objSet l k w := by
  induction l with
  | nil => rfl
  | cons p rest ih =>
      obtain ⟨k₀, u⟩ := p
      by_cases hk : k₀ = k
      · simp [objSet, hk]
      · simp [objSet, hk, ih]

theorem objSet_comm {k k' : String} (h : k ≠ k') (l : List (String × Json)) (v w : Json) :
    objSet (objSet l k v) k' w = objSet (objSet l k' w) k v := by
  induction l with
  | nil => rfl
  | cons p rest ih =>
      obtain ⟨k₀, u⟩ := p
      by_cases hk : k₀ = k
      · subst hk
        simp [objSet, h]
      · by_cases hk' : k₀ = k'
        · subst hk'
          simp [objSet, hk, Ne.symm h]
        · simp [objSet, hk, hk', ih]

theorem foldr_errs_nil_iff {α : Type} (f : α → List String) :
    ∀ l : List α, (l.foldr (fun x acc => f x ++ acc) [] = []) ↔ ∀ x ∈ l, f x = [] := by
  intro l
  induction l with
  | nil => simp
  | cons a rest ih =>
      simp only [List.foldr_cons, List.append_eq_nil, List.mem_cons]
      constructor
      · rintro ⟨h₁, h₂⟩ x hx
        rcases hx with rfl | hx
        · exact h₁
        · exact (ih.mp h₂) x hx
      · intro h
        exact ⟨h a (Or.inl rfl), ih.mpr (fun x hx => h x (Or.inr hx))⟩

theorem stepList_of_forall {step : Json → Option (List String × Json)} :
    ∀ l : List Json, (∀ x ∈ l, step x = some ([], x)) → stepList step l = some ([], l) := by
  intro l
  induction l with
  | nil => intro _; rfl
  | cons a rest ih =>
      intro h
      simp only [stepList, h a (List.mem_cons_self a rest),
        ih (fun x hx => h x (List.mem_cons.mpr (Or.inr hx))), Option.bind_eq_bind,
        Option.some_bind, List.nil_append, Option.pure_def]

theorem stepList_forall_of_self {step : Json → Option (List String × Json)} :
    ∀ l : List Json, stepList step l = some ([], l) → ∀ x ∈ l, step x = some ([], x) := by
  intro l
  induction l with
  | nil => intro _ x hx; exact absurd hx (List.not_mem_nil x)
  | cons a rest ih =>
      intro h x hx
      simp only [stepList, Option.pure_def, Option.bind_eq_bind, Option.bind_eq_some] at h
      obtain ⟨⟨e, a'⟩, ha, h'⟩ := h
      obtain ⟨⟨es, rest'⟩, hrest, hout⟩ := h'
      simp only [Option.some.injEq, Prod.mk.injEq, List.cons.injEq] at hout
      obtain ⟨hcat, ha', hrest'⟩ := hout
      have he : e = [] := (List.append_eq_nil.mp hcat).1
      have hes : es = [] := (List.append_eq_nil.mp hcat).2
      rcases List.mem_cons.mp hx with rfl | hmem
      · rw [ha', he] at ha; exact ha
      · refine ih ?_ x hmem
        rw [hrest', hes] at hrest; exact hrest

theorem typeField_ok_iff (v : Option Json) :
    (requiredError ("_type") v = [] ∧ typeFieldErrors v = []) ↔
      ∃ ts, v = some (.str ts) ∧ statementTypeOk ts = true := by
  cases v with
  | none => simp [requiredError, typeFieldErrors]
  | some j =>
      cases j with
      | str s => by_cases h : statementTypeOk s <;> simp [requiredError, typeFieldErrors, h]
      | null => simp [requiredError, typeFieldErrors]
      | bool b => simp [requiredError, typeFieldErrors]
      | num n => simp [requiredError, typeFieldErrors]
      | arr xs => simp [requiredError, typeFieldErrors]
      | obj kvs => simp [requiredError, typeFieldErrors]

theorem subjectField_ok_iff (v : Option Json) :
    (requiredError ("subject") v = [] ∧ subjectFieldErrors v = []) ↔
      ∃ items, v = some (.arr items) ∧ items ≠ [] ∧ ∀ it ∈ items, subjectItemErrors it = [] := by
  cases v with
  | none => simp [requiredError, subjectFieldErrors]
  | some j =>
      cases j with
      | arr items =>
          cases items with
          | nil => simp [requiredError, subjectFieldErrors]
          | cons a t => simp [requiredError, subjectFieldErrors, foldr_errs_nil_iff]
      | null => simp [requiredError, subjectFieldErrors]
      | bool b => simp [requiredError, subjectFieldErrors]
      | num n => simp [requiredError, subjectFieldErrors]
      | str s => simp [requiredError, subjectFieldErrors]
      | obj kvs => simp [requiredError, subjectFieldErrors]

theorem ptField_ok_iff (v : Option Json) :
    (requiredError ("predicateType") v = [] ∧ predicateTypeFieldErrors v = []) ↔
      ∃ ps, v = some (.str ps) ∧ predicateTypeOk ps = true := by
  cases v with
  | none => simp [requiredError, predicateTypeFieldErrors]
  | some j =>
      cases j with
      | str s => by_cases h : predicateTypeOk s <;> simp [requiredError, predicateTypeFieldErrors, h]
      | null => simp [requiredError, predicateTypeFieldErrors]
      | bool b => simp [requiredError, predicateTypeFieldErrors]
      | num n => simp [requiredError, predicateTypeFieldErrors]
      | arr xs => simp [requiredError, predicateTypeFieldErrors]
      | obj kvs => simp [requiredError, predicateTypeFieldErrors]

theorem predField_ok_iff (v : Option Json) :
    (requiredError ("predicate") v = [] ∧ predicateFieldErrors v = []) ↔
      ∃ pk, v = some (.obj pk) := by
  cases v with
  | none => simp [requiredError, predicateFieldErrors]
  | some j =>
      cases j with
      | obj kvs => simp [requiredError, predicateFieldErrors]
      | null => simp [requiredError, predicateFieldErrors]
      | bool b => simp [requiredError, predicateFieldErrors]
      | num n => simp [requiredError, predicateFieldErrors]
      | str s => simp [requiredError, predicateFieldErrors]
      | arr xs => simp [requiredError, predicateFieldErrors]

theorem validate_obj_nil_iff (kvs : List (String × Json)) :
    validate_statement (.obj kvs) = [] ↔
      ((∃ ts, lookupJson kvs ("_type") = some (.str ts) ∧ statementTypeOk ts = true) ∧
       (∃ items, lookupJson kvs ("subject") = some (.arr items) ∧ items ≠ [] ∧
          ∀ it ∈ items, subjectItemErrors it = []) ∧
       (∃ ps, lookupJson kvs ("predicateType") = some (.str ps) ∧ predicateTypeOk ps = true) ∧
       (∃ pk, lookupJson kvs ("predicate") = some (.obj pk))) := by
  constructor
  · intro h
    simp only [validate_statement, List.append_eq_nil] at h
    refine ⟨(typeField_ok_iff _).mp ⟨?_, ?_⟩, (subjectField_ok_iff _).mp ⟨?_, ?_⟩,
      (ptField_ok_iff _).mp ⟨?_, ?_⟩, (predField_ok_iff _).mp ⟨?_, ?_⟩⟩ <;> tauto
  · intro h
    obtain ⟨ht, hs, hp, hq⟩ := h
    obtain ⟨h1, h5⟩ := (typeField_ok_iff _).mpr ht
    obtain ⟨h2, h6⟩ := (subjectField_ok_iff _).mpr hs
    obtain ⟨h3, h7⟩ := (ptField_ok_iff _).mpr hp
    obtain ⟨h4, h8⟩ := (predField_ok_iff _).mpr hq
    simp only [validate_statement, List.append_eq_nil]
    tauto

theorem canonSubjects_arr {stmt : List (String × Json)} {subs : List Json}
    (h : lookupJson stmt ("subject") = some (.arr subs)) :
    canonSubjects stmt = objSet stmt ("subject") (.arr (sortByName subs)) := by
  simp [canonSubjects, h]

theorem canonSubjects_eq_self {stmt : List (String × Json)}
    (h : ∀ subs, lookupJson stmt ("subject") ≠ some (.arr subs)) :
    canonSubjects stmt = stmt := by
  unfold canonSubjects
  cases hs : lookupJson stmt ("subject") with
  | none => rfl
  | some w => cases w <;> first | rfl | exact absurd hs (h _)

theorem canonMaterials_arr {stmt pk : List (String × Json)} {mats : List Json}
    (h : lookupJson stmt ("predicate") = some (.obj pk))
    (hm : lookupJson pk ("materials") = some (.arr mats)) :
    canonMaterials stmt =
      objSet stmt ("predicate") (.obj (objSet pk ("materials") (.arr (sortByName mats)))) := by
  simp [canonMaterials, h, hm]

theorem canonMaterials_obj_notarr {stmt pk : List (String × Json)}
    (h : lookupJson stmt ("predicate") = some (.obj pk))
    (hm : ∀ mats, lookupJson pk ("materials") ≠ some (.arr mats)) :
    canonMaterials stmt = stmt := by
  simp only [canonMaterials, h]

theorem canonMaterials_eq_self {stmt : List (String × Json)}
    (h : ∀ pk, lookupJson stmt ("predicate") ≠ some (.obj pk)) :
    canonMaterials stmt = stmt := by
  unfold canonMaterials
  cases hs : lookupJson stmt ("predicate") with
  | none => rfl
  | some w => cases w <;> first | rfl | exact absurd hs (h _)

theorem sortByName_ne_nil {items : List Json} (h : items ≠ []) : sortByName items ≠ [] := by
  intro hnil
  have hp := sortByName_perm items
  rw [hnil] at hp
  exact h hp.nil_eq.symm

theorem sortByName_mem {items : List Json} {it : Json} (h : it ∈ sortByName items) :
    it ∈ items :=
  (sortByName_perm items).mem_iff.mp h

/-- Canonicalization preserves schema validity: the canonical form of a
schema-valid statement is schema-valid. -/
theorem validate_canonical (stmt : List (String × Json))
    (h : validate_statement (.obj stmt) = []) :
    validate_statement (.obj (canonicalizeStatement stmt)) = [] := by
  rw [validate_obj_nil_iff] at h ⊢
  obtain ⟨⟨ts, hts, htsok⟩, ⟨items, hsubj, hne, hitems⟩, ⟨ps, hps, hpsok⟩, ⟨pk, hpk⟩⟩ := h
  have hcs : canonSubjects stmt = objSet stmt ("subject") (.arr (sortByName items)) :=
    canonSubjects_arr hsubj
  have hcs_subj : lookupJson (canonSubjects stmt) ("subject") = some (.arr (sortByName items)) := by
    rw [hcs]; exact lookupJson_objSet_self hsubj _
  have hcs_type : lookupJson (canonSubjects stmt) ("_type") = some (.str ts) := by
    rw [hcs, lookupJson_objSet_ne (by decide), hts]
  have hcs_pt : lookupJson (canonSubjects stmt) ("predicateType") = some (.str ps) := by
    rw [hcs, lookupJson_objSet_ne (by decide), hps]
  have hcs_pred : lookupJson (canonSubjects stmt) ("predicate") = some (.obj pk) := by
    rw [hcs, lookupJson_objSet_ne (by decide), hpk]
  have hsort_ne : sortByName items ≠ [] := sortByName_ne_nil hne
  have hsort_items : ∀ it ∈ sortByName items, subjectItemErrors it = [] :=
    fun it hit => hitems it (sortByName_mem hit)
  unfold canonicalizeStatement
  cases hm : lookupJson pk ("materials") with
  | none =>
      rw [canonMaterials_obj_notarr hcs_pred (fun mats hmm => by rw [hm] at hmm; cases hmm)]
      exact ⟨⟨ts, hcs_type, htsok⟩, ⟨sortByName items, hcs_subj, hsort_ne, hsort_items⟩,
        ⟨ps, hcs_pt, hpsok⟩, ⟨pk, hcs_pred⟩⟩
  | some w =>
      cases w with
      | arr mats =>
          rw [canonMaterials_arr hcs_pred hm]
          refine ⟨⟨ts, ?_, htsok⟩, ⟨sortByName items, ?_, hsort_ne, hsort_items⟩,
            ⟨ps, ?_, hpsok⟩, ⟨objSet pk ("materials") (.arr (sortByName mats)), ?_⟩⟩
          · rw [lookupJson_objSet_ne (by decide), hcs_type]
          · rw [lookupJson_objSet_ne (by decide), hcs_subj]
          · rw [lookupJson_objSet_ne (by decide), hcs_pt]
          · exact lookupJson_objSet_self hcs_pred _
      | null =>
          rw [canonMaterials_obj_notarr hcs_pred (fun mats hmm => by rw [hm] at hmm; cases hmm)]
          exact ⟨⟨ts, hcs_type, htsok⟩, ⟨sortByName items, hcs_subj, hsort_ne, hsort_items⟩,
            ⟨ps, hcs_pt, hpsok⟩, ⟨pk, hcs_pred⟩⟩
      | bool b =>
          rw [canonMaterials_obj_notarr hcs_pred (fun mats hmm => by rw [hm] at hmm; cases hmm)]
          exact ⟨⟨ts, hcs_type, htsok⟩, ⟨sortByName items, hcs_subj, hsort_ne, hsort_items⟩,
            ⟨ps, hcs_pt, hpsok⟩, ⟨pk, hcs_pred⟩⟩
      | num n =>
          rw [canonMaterials_obj_notarr hcs_pred (fun mats hmm => by rw [hm] at hmm; cases hmm)]
          exact ⟨⟨ts, hcs_type, htsok⟩, ⟨sortByName items, hcs_subj, hsort_ne, hsort_items⟩,
            ⟨ps, hcs_pt, hpsok⟩, ⟨pk, hcs_pred⟩⟩
      | str s =>
          rw [canonMaterials_obj_notarr hcs_pred (fun mats hmm => by rw [hm] at hmm; cases hmm)]
          exact ⟨⟨ts, hcs_type, htsok⟩, ⟨sortByName items, hcs_subj, hsort_ne, hsort_items⟩,
            ⟨ps, hcs_pt, hpsok⟩, ⟨pk, hcs_pred⟩⟩
      | obj kv =>
          rw [canonMaterials_obj_notarr hcs_pred (fun mats hmm => by rw [hm] at hmm; cases hmm)]
          exact ⟨⟨ts, hcs_type, htsok⟩, ⟨sortByName items, hcs_subj, hsort_ne, hsort_items⟩,
            ⟨ps, hcs_pt, hpsok⟩, ⟨pk, hcs_pred⟩⟩

theorem fillSubjects_build_arr {env : FSEnv} {base : List String}
    {stmt : List (String × Json)} {items : List Json}
    (h : lookupJson stmt ("subject") = some (.arr items))
    (hall : ∀ it ∈ items, subjectStep env base it = some ([], it)) :
    fillSubjects env base stmt = some ([], stmt) := by
  simp only [fillSubjects, h, stepList_of_forall _ hall, Option.pure_def,
    Option.bind_eq_bind, Option.some_bind]
  rw [objSet_same h]

theorem fillSubjects_build_other {env : FSEnv} {base : List String}
    {stmt : List (String × Json)}
    (h : lookupJson stmt ("subject") = none ∨ lookupJson stmt ("subject") = some (.str "") ∨
      lookupJson stmt ("subject") = some (.obj [])) :
    fillSubjects env base stmt = some ([], stmt) := by
  rcases h with h | h | h <;> simp [fillSubjects, h]

theorem fillSubjects_shape {env : FSEnv} {base : List String}
    {stmt s₁ : List (String × Json)} {es : List String}
    (h : fillSubjects env base stmt = some (es, s₁)) :
    s₁ = stmt ∨
      ∃ items items', lookupJson stmt ("subject") = some (.arr items) ∧
        s₁ = objSet stmt ("subject") (.arr items') ∧
        stepList (subjectStep env base) items = some (es, items') := by
  cases hs : lookupJson stmt ("subject") with
  | none => simp only [fillSubjects, hs, Option.some.injEq, Prod.mk.injEq] at h; exact Or.inl h.2.symm
  | some w =>
      cases w with
      | arr items =>
          simp only [fillSubjects, hs, Option.pure_def, Option.bind_eq_bind,
            Option.bind_eq_some] at h
          obtain ⟨⟨es', items'⟩, hstep, hout⟩ := h
          simp only [Option.some.injEq, Prod.mk.injEq] at hout
          right
          exact ⟨items, items', rfl, hout.2.symm, by rw [hout.1] at hstep; exact hstep⟩
      | str s =>
          by_cases hse : s = ""
          · subst hse
            simp only [fillSubjects, hs] at h
            rw [if_pos trivial] at h
            simp only [Option.some.injEq, Prod.mk.injEq] at h
            exact Or.inl h.2.symm
          · simp [fillSubjects, hs, hse] at h
      | obj kv =>
          cases kv with
          | nil =>
              simp only [fillSubjects, hs] at h
              rw [if_pos (show ([] : List (String × Json)).isEmpty = true from rfl)] at h
              simp only [Option.some.injEq, Prod.mk.injEq] at h
              exact Or.inl h.2.symm
          | cons p rest => simp [fillSubjects, hs] at h
      | null => simp [fillSubjects, hs] at h
      | bool b => simp [fillSubjects, hs] at h
      | num n => simp [fillSubjects, hs] at h

theorem fillSubjects_extract {env : FSEnv} {base : List String} {stmt : List (String × Json)}
    (h : fillSubjects env base stmt = some ([], stmt)) :
    (∃ items, lookupJson stmt ("subject") = some (.arr items) ∧
       ∀ it ∈ items, subjectStep env base it = some ([], it)) ∨
    (lookupJson stmt ("subject") = none ∨ lookupJson stmt ("subject") = some (.str "") ∨
     lookupJson stmt ("subject") = some (.obj [])) := by
  cases hs : lookupJson stmt ("subject") with
  | none => exact Or.inr (Or.inl rfl)
  | some w =>
      cases w with
      | arr items =>
          simp only [fillSubjects, hs, Option.pure_def, Option.bind_eq_bind,
            Option.bind_eq_some] at h
          obtain ⟨⟨es', items'⟩, hstep, hout⟩ := h
          simp only [Option.some.injEq, Prod.mk.injEq] at hout
          have hlook : lookupJson stmt ("subject") = some (.arr items') := by
            conv_lhs => rw [← hout.2]
            exact lookupJson_objSet_self hs _
          rw [hs] at hlook
          injection hlook with hlook'
          injection hlook' with hitems
          left
          refine ⟨items, rfl, ?_⟩
          rw [← hitems, hout.1] at hstep
          exact stepList_forall_of_self _ hstep
      | str s =>
          by_cases hse : s = ""
          · subst hse; exact Or.inr (Or.inr (Or.inl rfl))
          · simp [fillSubjects, hs, hse] at h
      | obj kv =>
          cases kv with
          | nil => exact Or.inr (Or.inr (Or.inr rfl))
          | cons p rest => simp [fillSubjects, hs] at h
      | null => simp [fillSubjects, hs] at h
      | bool b => simp [fillSubjects, hs] at h
      | num n => simp [fillSubjects, hs] at h

theorem fillMaterials_build_arr {env : FSEnv} {base : List String}
    {stmt pk : List (String × Json)} {mats : List Json}
    (hp : lookupJson stmt ("predicate") = some (.obj pk))
    (hm : lookupJson pk ("materials") = some (.arr mats))
    (hall : ∀ m ∈ mats, materialStep env base m = some ([], m)) :
    fillMaterials env base stmt = some ([], stmt) := by
  simp only [fillMaterials, hp, hm, stepList_of_forall _ hall, Option.pure_def,
    Option.bind_eq_bind, Option.some_bind]
  rw [objSet_same hm, objSet_same hp]

theorem fillMaterials_build_other {env : FSEnv} {base : List String}
    {stmt : List (String × Json)}
    (h : lookupJson stmt ("predicate") = none ∨
      ∃ pk, lookupJson stmt ("predicate") = some (.obj pk) ∧
        (lookupJson pk ("materials") = none ∨
         ∃ w, lookupJson pk ("materials") = some w ∧ jsonFalsy w = true ∧
           ∀ ms, w ≠ .arr ms)) :
    fillMaterials env base stmt = some ([], stmt) := by
  rcases h with h | ⟨pk, hp, hmn | ⟨w, hw, hfal, hnarr⟩⟩
  · simp [fillMaterials, h]
  · simp [fillMaterials, hp, hmn]
  · cases w with
    | arr ms => exact absurd rfl (hnarr ms)
    | null => simp [fillMaterials, hp, hw, jsonFalsy] at hfal ⊢
    | bool b => simp only [fillMaterials, hp, hw]; rw [if_pos hfal]
    | num n => simp only [fillMaterials, hp, hw]; rw [if_pos hfal]
    | str s => simp only [fillMaterials, hp, hw]; rw [if_pos hfal]
    | obj kv => simp only [fillMaterials, hp, hw]; rw [if_pos hfal]

theorem fillMaterials_shape {env : FSEnv} {base : List String}
    {stmt s₂ : List (String × Json)} {es : List String}
    (h : fillMaterials env base stmt = some (es, s₂)) :
    s₂ = stmt ∨
      ∃ pk mats mats', lookupJson stmt ("predicate") = some (.obj pk) ∧
        lookupJson pk ("materials") = some (.arr mats) ∧
        s₂ = objSet stmt ("predicate") (.obj (objSet pk ("materials") (.arr mats'))) ∧
        stepList (materialStep env base) mats = some (es, mats') := by
  cases hp : lookupJson stmt ("predicate") with
  | none =>
      simp only [fillMaterials, hp, Option.some.injEq, Prod.mk.injEq] at h
      exact Or.inl h.2.symm
  | some w =>
      cases w with
      | obj pk =>
          cases hm : lookupJson pk ("materials") with
          | none =>
              simp only [fillMaterials, hp, hm, Option.some.injEq, Prod.mk.injEq] at h
              exact Or.inl h.2.symm
          | some u =>
              cases u with
              | arr mats =>
                  simp only [fillMaterials, hp, hm, Option.pure_def, Option.bind_eq_bind,
                    Option.bind_eq_some] at h
                  obtain ⟨⟨es', mats'⟩, hstep, hout⟩ := h
                  simp only [Option.some.injEq, Prod.mk.injEq] at hout
                  right
                  exact ⟨pk, mats, mats', rfl, hm, hout.2.symm,
                    by rw [hout.1] at hstep; exact hstep⟩
              | null => simp [fillMaterials, hp, hm, jsonFalsy] at h; exact Or.inl h.2.symm
              | bool b =>
                  simp only [fillMaterials, hp, hm] at h
                  by_cases hb : jsonFalsy (.bool b) = true
                  · rw [if_pos hb] at h
                    simp only [Option.some.injEq, Prod.mk.injEq] at h
                    exact Or.inl h.2.symm
                  · rw [if_neg (by simpa using hb)] at h; cases h
              | num n =>
                  simp only [fillMaterials, hp, hm] at h
                  by_cases hb : jsonFalsy (.num n) = true
                  · rw [if_pos hb] at h
                    simp only [Option.some.injEq, Prod.mk.injEq] at h
                    exact Or.inl h.2.symm
                  · rw [if_neg (by simpa using hb)] at h; cases h
              | str s =>
                  simp only [fillMaterials, hp, hm] at h
                  by_cases hb : jsonFalsy (.str s) = true
                  · rw [if_pos hb] at h
                    simp only [Option.some.injEq, Prod.mk.injEq] at h
                    exact Or.inl h.2.symm
                  · rw [if_neg (by simpa using hb)] at h; cases h
              | obj kv =>
                  simp only [fillMaterials, hp, hm] at h
                  by_cases hb : jsonFalsy (.obj kv) = true
                  · rw [if_pos hb] at h
                    simp only [Option.some.injEq, Prod.mk.injEq] at h
                    exact Or.inl h.2.symm
                  · rw [if_neg (by simpa using hb)] at h; cases h
      | null => simp [fillMaterials, hp] at h
      | bool b => simp [fillMaterials, hp] at h
      | num n => simp [fillMaterials, hp] at h
      | str s => simp [fillMaterials, hp] at h
      | arr xs => simp [fillMaterials, hp] at h

theorem fillMaterials_extract {env : FSEnv} {base : List String} {stmt : List (String × Json)}
    (h : fillMaterials env base stmt = some ([], stmt)) :
    (∃ pk mats, lookupJson stmt ("predicate") = some (.obj pk) ∧
       lookupJson pk ("materials") = some (.arr mats) ∧
       ∀ m ∈ mats, materialStep env base m = some ([], m)) ∨
    (lookupJson stmt ("predicate") = none ∨
     ∃ pk, lookupJson stmt ("predicate") = some (.obj pk) ∧
       (lookupJson pk ("materials") = none ∨
        ∃ w, lookupJson pk ("materials") = some w ∧ jsonFalsy w = true ∧
          ∀ ms, w ≠ .arr ms)) := by
  cases hp : lookupJson stmt ("predicate") with
  | none => exact Or.inr (Or.inl rfl)
  | some v =>
      cases v with
      | obj pk =>
          cases hm : lookupJson pk ("materials") with
          | none => exact Or.inr (Or.inr ⟨pk, rfl, Or.inl hm⟩)
          | some u =>
              cases u with
              | arr mats =>
                  simp only [fillMaterials, hp, hm, Option.pure_def, Option.bind_eq_bind,
                    Option.bind_eq_some] at h
                  obtain ⟨⟨es', mats'⟩, hstep, hout⟩ := h
                  simp only [Option.some.injEq, Prod.mk.injEq] at hout
                  have hpk : lookupJson stmt ("predicate") =
                      some (.obj (objSet pk ("materials") (.arr mats'))) := by
                    conv_lhs => rw [← hout.2]
                    exact lookupJson_objSet_self hp _
                  rw [hp] at hpk
                  injection hpk with hpk'
                  injection hpk' with hpk''
                  have hmm : lookupJson pk ("materials") = some (.arr mats') := by
                    conv_lhs => rw [hpk'']
                    exact lookupJson_objSet_self hm _
                  rw [hm] at hmm
                  injection hmm with hmm'
                  injection hmm' with hmats
                  left
                  refine ⟨pk, mats, rfl, hm, ?_⟩
                  rw [← hmats, hout.1] at hstep
                  exact stepList_forall_of_self _ hstep
              | null => exact Or.inr (Or.inr ⟨pk, rfl, Or.inr ⟨.null, hm, rfl, fun ms hh => by cases hh⟩⟩)
              | bool b =>
                  by_cases hb : jsonFalsy (.bool b) = true
                  · exact Or.inr (Or.inr ⟨pk, rfl, Or.inr ⟨.bool b, hm, hb, fun ms hh => by cases hh⟩⟩)
                  · simp only [fillMaterials, hp, hm] at h
                    rw [if_neg (by simpa using hb)] at h; cases h
              | num n =>
                  by_cases hb : jsonFalsy (.num n) = true
                  · exact Or.inr (Or.inr ⟨pk, rfl, Or.inr ⟨.num n, hm, hb, fun ms hh => by cases hh⟩⟩)
                  · simp only [fillMaterials, hp, hm] at h
                    rw [if_neg (by simpa using hb)] at h; cases h
              | str s =>
                  by_cases hb : jsonFalsy (.str s) = true
                  · exact Or.inr (Or.inr ⟨pk, rfl, Or.inr ⟨.str s, hm, hb, fun ms hh => by cases hh⟩⟩)
                  · simp only [fillMaterials, hp, hm] at h
                    rw [if_neg (by simpa using hb)] at h; cases h
              | obj kv =>
                  by_cases hb : jsonFalsy (.obj kv) = true
                  · exact Or.inr (Or.inr ⟨pk, rfl, Or.inr ⟨.obj kv, hm, hb, fun ms hh => by cases hh⟩⟩)
                  · simp only [fillMaterials, hp, hm] at h
                    rw [if_neg (by simpa using hb)] at h; cases h
      | null => simp [fillMaterials, hp] at h
      | bool b => simp [fillMaterials, hp] at h
      | num n => simp [fillMaterials, hp] at h
      | str s => simp [fillMaterials, hp] at h
      | arr xs => simp [fillMaterials, hp] at h

theorem fill_build {env : FSEnv} {base : List String} {stmt : List (String × Json)}
    (h1 : fillSubjects env base stmt = some ([], stmt))
    (h2 : fillMaterials env base stmt = some ([], stmt)) :
    fill_and_check_digests env base (.obj stmt) = some ([], .obj stmt) := by
  simp [fill_and_check_digests, h1, h2]

theorem fill_extract {env : FSEnv} {base : List String} {stmt : List (String × Json)}
    (h : fill_and_check_digests env base (.obj stmt) = some ([], .obj stmt)) :
    fillSubjects env base stmt = some ([], stmt) ∧
    fillMaterials env base stmt = some ([], stmt) := by
  simp only [fill_and_check_digests, Option.pure_def, Option.bind_eq_bind,
    Option.bind_eq_some] at h
  obtain ⟨⟨e1, s1⟩, h1, h'⟩ := h
  obtain ⟨⟨e2, s2⟩, h2, hout⟩ := h'
  dsimp only at h1 h2 hout
  simp only [Option.some.injEq, Prod.mk.injEq, Json.obj.injEq] at hout
  obtain ⟨hcat, hs2⟩ := hout
  obtain ⟨he1, he2⟩ := List.append_eq_nil.mp hcat
  subst he1
  subst he2
  rw [hs2] at h2
  rcases fillSubjects_shape h1 with heq | ⟨items, items', hs, hobj1, hstep⟩
  · rw [heq] at h1 h2
    exact ⟨h1, h2⟩
  · rcases fillMaterials_shape h2 with heq2 | ⟨pk, mats, mats', hp, hm, hobj2, hstep2⟩
    · rw [← heq2] at h1 h2
      exact ⟨h1, h2⟩
    · have hlook : lookupJson stmt ("subject") = some (.arr items') := by
        rw [hobj2, lookupJson_objSet_ne (by decide), hobj1]
        exact lookupJson_objSet_self hs _
      rw [hs] at hlook
      injection hlook with hl
      injection hl with hitems
      have hs1 : s1 = stmt := by rw [hobj1, ← hitems, objSet_same hs]
      rw [hs1] at h1 h2
      exact ⟨h1, h2⟩

/-- Canonicalization preserves the fully-checked state: if
`fill_and_check_digests` returns no errors and leaves the statement
unchanged, the same holds for the canonicalized statement. -/
theorem fill_canonical (env : FSEnv) (base : List String) (stmt : List (String × Json))
    (h : fill_and_check_digests env base (.obj stmt) = some ([], .obj stmt)) :
    fill_and_check_digests env base (.obj (canonicalizeStatement stmt)) =
      some ([], .obj (canonicalizeStatement stmt)) := by
  obtain ⟨hsub, hmat⟩ := fill_extract h
  rcases fillSubjects_extract hsub with ⟨items, hs, hall⟩ | hother
  · have hcs := canonSubjects_arr hs
    have hcs_subj : lookupJson (canonSubjects stmt) ("subject") =
        some (.arr (sortByName items)) := by
      rw [hcs]; exact lookupJson_objSet_self hs _
    have hcs_pred : lookupJson (canonSubjects stmt) ("predicate") =
        lookupJson stmt ("predicate") := by
      rw [hcs]; exact lookupJson_objSet_ne (by decide) _
    have hall' : ∀ it ∈ sortByName items, subjectStep env base it = some ([], it) :=
      fun it hit => hall it (sortByName_mem hit)
    rcases fillMaterials_extract hmat with ⟨pk, mats, hp, hm, hallm⟩ | hother2
    · have hC : canonicalizeStatement stmt =
          objSet (canonSubjects stmt) ("predicate")
            (.obj (objSet pk ("materials") (.arr (sortByName mats)))) := by
        unfold canonicalizeStatement
        exact canonMaterials_arr (by rw [hcs_pred]; exact hp) hm
      have hC_subj : lookupJson (canonicalizeStatement stmt) ("subject") =
          some (.arr (sortByName items)) := by
        rw [hC, lookupJson_objSet_ne (by decide), hcs_subj]
      have hC_pred : lookupJson (canonicalizeStatement stmt) ("predicate") =
          some (.obj (objSet pk ("materials") (.arr (sortByName mats)))) := by
        rw [hC]
        exact lookupJson_objSet_self (by rw [hcs_pred]; exact hp) _
      have hPk : lookupJson (objSet pk ("materials") (.arr (sortByName mats))) ("materials") =
          some (.arr (sortByName mats)) := lookupJson_objSet_self hm _
      have hallm' : ∀ m ∈ sortByName mats, materialStep env base m = some ([], m) :=
        fun m hmem => hallm m (sortByName_mem hmem)
      exact fill_build (fillSubjects_build_arr hC_subj hall')
        (fillMaterials_build_arr hC_pred hPk hallm')
    · have hC : canonicalizeStatement stmt = canonSubjects stmt := by
        unfold canonicalizeStatement
        rcases hother2 with hnone | ⟨pk, hp, hmm⟩
        · exact canonMaterials_eq_self (fun pk hh => by rw [hcs_pred, hnone] at hh; cases hh)
        · rcases hmm with hmn | ⟨w, hw, hfal, hnarr⟩
          · exact canonMaterials_obj_notarr (by rw [hcs_pred]; exact hp)
              (fun mats hh => by rw [hmn] at hh; cases hh)
          · refine canonMaterials_obj_notarr (by rw [hcs_pred]; exact hp) ?_
            intro mats hh
            rw [hw] at hh
            injection hh with hh'
            exact hnarr mats hh'
      have hsubj' : fillSubjects env base (canonicalizeStatement stmt) =
          some ([], canonicalizeStatement stmt) := by
        rw [hC]
        exact fillSubjects_build_arr hcs_subj hall'
      have hmat' : fillMaterials env base (canonicalizeStatement stmt) =
          some ([], canonicalizeStatement stmt) := by
        rw [hC]
        apply fillMaterials_build_other
        rcases hother2 with hnone | ⟨pk, hp, hmm⟩
        · exact Or.inl (by rw [hcs_pred]; exact hnone)
        · exact Or.inr ⟨pk, by rw [hcs_pred]; exact hp, hmm⟩
      exact fill_build hsubj' hmat'
  · have hcs : canonSubjects stmt = stmt := by
      apply canonSubjects_eq_self
      rcases hother with h0 | h0 | h0 <;>
        · intro subs hh
          rw [h0] at hh
          cases hh
    have hsubjC : ∀ t : List (String × Json), lookupJson t ("subject") = lookupJson stmt ("subject") →
        fillSubjects env base t = some ([], t) := by
      intro t ht
      apply fillSubjects_build_other
      rcases hother with h0 | h0 | h0
      · exact Or.inl (ht.trans h0)
      · exact Or.inr (Or.inl (ht.trans h0))
      · exact Or.inr (Or.inr (ht.trans h0))
    rcases fillMaterials_extract hmat with ⟨pk, mats, hp, hm, hallm⟩ | hother2
    · have hC : canonicalizeStatement stmt =
          objSet stmt ("predicate") (.obj (objSet pk ("materials") (.arr (sortByName mats)))) := by
        unfold canonicalizeStatement
        rw [hcs]
        exact canonMaterials_arr hp hm
      have hC_pred : lookupJson (canonicalizeStatement stmt) ("predicate") =
          some (.obj (objSet pk ("materials") (.arr (sortByName mats)))) := by
        rw [hC]
        exact lookupJson_objSet_self hp _
      have hPk : lookupJson (objSet pk ("materials") (.arr (sortByName mats))) ("materials") =
          some (.arr (sortByName mats)) := lookupJson_objSet_self hm _
      have hsubj' := hsubjC (canonicalizeStatement stmt)
        (by rw [hC]; exact lookupJson_objSet_ne (by decide) _)
      exact fill_build hsubj'
        (fillMaterials_build_arr hC_pred hPk (fun m hmem => hallm m (sortByName_mem hmem)))
    · have hC : canonicalizeStatement stmt = stmt := by
        unfold canonicalizeStatement
        rw [hcs]
        rcases hother2 with hnone | ⟨pk, hp, hmm⟩
        · exact canonMaterials_eq_self (fun pk hh => by rw [hnone] at hh; cases hh)
        · rcases hmm with hmn | ⟨w, hw, hfal, hnarr⟩
          · exact canonMaterials_obj_notarr hp (fun mats hh => by rw [hmn] at hh; cases hh)
          · refine canonMaterials_obj_notarr hp ?_
            intro mats hh
            rw [hw] at hh
            injection hh with hh'
            exact hnarr mats hh'
      rw [hC]
      exact h

theorem dsse_verify_sign (stmt : List (String × Json)) (priv : Nat) (kid : String) :
    dsse_verify (dsse_sign stmt priv kid) priv = .ok () := by
  simp [dsse_verify, dsse_sign, ed25519_verify, ed25519_sign]

/-! ## Claim theorems -/

/-- C3: for every statement, the Ed25519 signature in the envelope
produced by `dsse_sign` is computed over the pre-authentication encoding
— the space-joined byte string of `"DSSEv1"`, the decimal-ASCII length
of the payload type, the payload type, the decimal-ASCII length of the
payload, and the payload — and never over the raw payload bytes alone
(the PAE is never equal to the payload). -/
theorem c3_signature_over_pae (stmt : List (String × Json)) (priv : Nat) (kid : String) :
    ((dsse_sign stmt priv kid).signatures.map SigEntry.sig =
      [ed25519_sign priv
        (utf8Encode "DSSEv1" ++ [32] ++
         utf8Encode (toString (PAYLOAD_TYPE.length)) ++ [32] ++
         utf8Encode PAYLOAD_TYPE ++ [32] ++
         utf8Encode (toString (dsse_sign stmt priv kid).payload.length) ++ [32] ++
         (dsse_sign stmt priv kid).payload)]) ∧
    pae PAYLOAD_TYPE (dsse_sign stmt priv kid).payload ≠ (dsse_sign stmt priv kid).payload := by
  constructor
  · simp [dsse_sign, pae]
  · intro hEq
    have hlen := congrArg List.length hEq
    have h6 : (utf8Encode "DSSEv1").length = 6 := by decide
    simp only [pae, List.length_append, h6, List.length_cons, List.length_nil] at hlen
    omega

/-- C7: `sha256_cached` raises `HashRaceError` whenever the read path is
taken (the cache record, if any, does not match the pre-open identity)
and the file identity observed immediately before opening differs from
the one observed immediately after reading to EOF; in particular no
digest is ever returned from such a read. -/
theorem c7_hash_race (env : ReadEnv) (record : Option CacheRecord)
    (hmiss : ∀ r ∈ record, r.meta ≠ meta_from_stat env.statPre)
    (hne : meta_from_stat env.statPre ≠ meta_from_stat env.statEnd) :
    sha256_cached env record = .hashRace := by
  have hread : sha256Read env = .hashRace := by
    unfold sha256Read
    by_cases h1 : meta_from_stat env.statStart = meta_from_stat env.statEnd
    · rw [if_neg (not_not_intro h1), if_pos (fun hsp => hne (by rw [← hsp]; exact h1))]
    · rw [if_pos h1]
  cases record with
  | none => exact hread
  | some r =>
      have hr := hmiss r (by simp)
      simp only [sha256_cached, if_neg hr]
      exact hread

/-- C7 witness: a concrete read during which the file's modification
time changed between the pre-open snapshot and the post-read snapshot,
with no cache record present. -/
theorem c7_hash_race_witness : sha256_cached c7Env none = .hashRace :=
  c7_hash_race c7Env none (by intro r hr; cases hr) (by decide)

/-- C9 (amended): for every envelope whose payload type is the expected
constant and which carries two or more signature entries, `dsse_verify`
succeeds iff the first entry's signature verifies the PAE under the
given key, and the result is independent of all later entries.  (As
stated in the claim — for *every* envelope — the property fails: a
non-standard payload type makes verification fail even when the first
signature verifies the PAE, see the counterexample.) -/
theorem c9_first_signature_only (payload : List Nat) (pub : Nat)
    (s₁ s₂ : SigEntry) (rest rest' : List SigEntry) :
    dsse_verify ⟨PAYLOAD_TYPE, payload, s₁ :: s₂ :: rest⟩ pub =
      dsse_verify ⟨PAYLOAD_TYPE, payload, s₁ :: s₂ :: rest'⟩ pub ∧
    (dsse_verify ⟨PAYLOAD_TYPE, payload, s₁ :: s₂ :: rest⟩ pub = .ok () ↔
      ed25519_verify pub s₁.sig (pae PAYLOAD_TYPE payload) = true) := by
  constructor
  · simp [dsse_verify]
  · by_cases h : ed25519_verify pub s₁.sig (pae PAYLOAD_TYPE payload) = true
    · simp [dsse_verify, h]
    · simp [dsse_verify, h]

/-- C9 counterexample: an envelope with two signature entries whose
first signature does verify the PAE of its payload type and payload, yet
on which `dsse_verify` fails, because the payload type is not the fixed
constant.  This falsifies the claim's "for every envelope with two or
more signature entries, verification succeeds iff the first entry's
signature verifies the PAE". -/
theorem c9_counterexample :
    c9Envelope.signatures.length = 2 ∧
    ed25519_verify 7 c9Sig (pae c9Envelope.payloadType c9Envelope.payload) = true ∧
    c9Envelope.signatures.map SigEntry.sig = [c9Sig, ⟨0, []⟩] ∧
    dsse_verify c9Envelope 7 = .error ("unsupported payloadType: application/x-other") := by
  refine ⟨rfl, ?_, rfl, rfl⟩
  decide

theorem buildVerifyResult_props (b : Bool) (se sch dig : List String) :
    ((buildVerifyResult b se sch dig).exit = 0 ↔
      (buildVerifyResult b se sch dig).signature_ok = true ∧
      (buildVerifyResult b se sch dig).schema_ok = true ∧
      (buildVerifyResult b se sch dig).digest_ok = true) ∧
    ((buildVerifyResult b se sch dig).exit = 0 ∨ (buildVerifyResult b se sch dig).exit = 1) ∧
    ((buildVerifyResult b se sch dig).signature_ok = false →
      (buildVerifyResult b se sch dig).error_code = "SIG_INVALID") ∧
    ((buildVerifyResult b se sch dig).signature_ok = true →
      (buildVerifyResult b se sch dig).schema_ok = false →
      (buildVerifyResult b se sch dig).error_code = "SCHEMA_INVALID") ∧
    ((buildVerifyResult b se sch dig).signature_ok = true →
      (buildVerifyResult b se sch dig).schema_ok = true →
      (buildVerifyResult b se sch dig).digest_ok = false →
      ((buildVerifyResult b se sch dig).error_code = "HASH_RACE" ∨
       (buildVerifyResult b se sch dig).error_code = "PATH_FORBIDDEN" ∨
       (buildVerifyResult b se sch dig).error_code = "DIGEST_MISMATCH" ∨
       (buildVerifyResult b se sch dig).error_code = "DIGEST_INVALID")) ∧
    ((buildVerifyResult b se sch dig).signature_ok = true ∧
      (buildVerifyResult b se sch dig).schema_ok = true ∧
      (buildVerifyResult b se sch dig).digest_ok = true →
      (buildVerifyResult b se sch dig).error_code = "OK") := by
  cases b with
  | false => simp [buildVerifyResult]
  | true =>
      by_cases hsch : sch.isEmpty
      · by_cases hdig : dig.isEmpty
        · simp [buildVerifyResult, hsch, hdig]
        · by_cases h1 : dig.any (fun s => strContains s ("file changed during hashing"))
          · simp [buildVerifyResult, hsch, hdig, h1]
          · by_cases h2 : dig.any (fun s => strContains s ("path") && strContains s ("allowed"))
            · simp [buildVerifyResult, hsch, hdig, h1, h2]
            · by_cases h3 : dig.any (fun s => strContains s ("digest mismatch"))
              · simp [buildVerifyResult, hsch, hdig, h1, h2, h3]
              · simp [buildVerifyResult, hsch, hdig, h1, h2, h3]
      · simp [buildVerifyResult, hsch]

/-- C4 (amended): whenever `cmd_verify` runs to completion, it exits 0
iff the signature check, the schema re-validation and the digest
re-check all pass, and otherwise exits 1 with a single `error_code`
chosen by priority: `SIG_INVALID` whenever the signature check fails,
then `SCHEMA_INVALID`, then one of the digest-related codes
(`HASH_RACE`, `PATH_FORBIDDEN`, `DIGEST_MISMATCH`, `DIGEST_INVALID`).
(As stated — for *every* envelope — the claim fails: on an envelope
whose signature verifies over a payload that is not decodable JSON,
`cmd_verify` raises instead of returning, see the counterexample.) -/
theorem c4_exit_code_and_priority (decode : List Nat → Option Json) (env : FSEnv)
    (base : List String) (e : Envelope) (pub : Nat) (r : VerifyResult)
    (h : cmd_verify decode env base e pub = some r) :
    (r.exit = 0 ↔ r.signature_ok = true ∧ r.schema_ok = true ∧ r.digest_ok = true) ∧
    (r.exit = 0 ∨ r.exit = 1) ∧
    (r.signature_ok = false → r.error_code = "SIG_INVALID") ∧
    (r.signature_ok = true → r.schema_ok = false → r.error_code = "SCHEMA_INVALID") ∧
    (r.signature_ok = true → r.schema_ok = true → r.digest_ok = false →
      (r.error_code = "HASH_RACE" ∨ r.error_code = "PATH_FORBIDDEN" ∨
       r.error_code = "DIGEST_MISMATCH" ∨ r.error_code = "DIGEST_INVALID")) ∧
    (r.signature_ok = true ∧ r.schema_ok = true ∧ r.digest_ok = true →
      r.error_code = "OK") := by
  have hshape : ∃ b se sch dig, r = buildVerifyResult b se sch dig := by
    cases hv : dsse_verify e pub with
    | error msg =>
        simp only [cmd_verify, hv, Option.some.injEq] at h
        exact ⟨false, [msg], [], [], h.symm⟩
    | ok u =>
        cases hd : decode e.payload with
        | none => simp only [cmd_verify, hv, hd] at h; cases h
        | some stmt =>
            simp only [cmd_verify, hv, hd] at h
            cases hf : (if (validate_statement stmt).isEmpty then
                (fill_and_check_digests env base stmt).map Prod.fst else some []) with
            | none => rw [hf] at h; cases h
            | some dig =>
                rw [hf] at h
                simp only [Option.some.injEq] at h
                exact ⟨true, [], validate_statement stmt, dig, h.symm⟩
  obtain ⟨b, se, sch, dig, rfl⟩ := hshape
  exact buildVerifyResult_props b se sch dig

/-- C4 counterexample: an envelope whose only signature verifies (so the
signature check passes) but whose payload, the lone byte `0xFF`, is not
decodable text: `json.loads(...decode())` raises outside the `try`, so
`cmd_verify` does not return an exit code at all — falsifying
"otherwise it returns exit code 1 with a single error_code". -/
theorem c4_counterexample :
    dsse_verify c4CrashEnvelope 5 = .ok () ∧
    cmd_verify decodeNone emptyFS [("base" : String)] c4CrashEnvelope 5 = none := by
  exact ⟨rfl, rfl⟩

/-- C4 witness: a bad-signature envelope on which `cmd_verify` completes
with exit code 1 and `error_code = "SIG_INVALID"`. -/
theorem c4_witness :
    cmd_verify decodeNone emptyFS [("base" : String)] c4BadSigEnvelope 5 = some c4SigFailRes ∧
    c4SigFailRes.signature_ok = false ∧
    c4SigFailRes.error_code = "SIG_INVALID" ∧
    c4SigFailRes.exit = 1 := by
  have h : cmd_verify decodeNone emptyFS [("base" : String)] c4BadSigEnvelope 5 =
      some c4SigFailRes := rfl
  obtain ⟨h1, h2, h3, _, _, _⟩ :=
    c4_exit_code_and_priority decodeNone emptyFS [("base" : String)] c4BadSigEnvelope 5
      c4SigFailRes h
  have hsig : c4SigFailRes.signature_ok = false := rfl
  refine ⟨h, hsig, h3 hsig, ?_⟩
  rcases h2 with h0 | h0
  · exact absurd ((h1.mp h0).1.symm.trans hsig) (by decide)
  · exact h0

/-- C10: in `cmd_verify`, when the signature check passes but the schema
re-validation reports at least one error, the digest re-check is skipped
entirely (the result does not depend on the filesystem or base
directory) and `digest_ok` is nevertheless reported as `true` while
`schema_ok` is `false`. -/
theorem c10_digest_skipped_on_schema_failure (decode : List Nat → Option Json)
    (env₁ env₂ : FSEnv) (base₁ base₂ : List String) (e : Envelope) (pub : Nat) (stmt : Json)
    (hsig : dsse_verify e pub = .ok ())
    (hdec : decode e.payload = some stmt)
    (hval : validate_statement stmt ≠ []) :
    cmd_verify decode env₁ base₁ e pub = cmd_verify decode env₂ base₂ e pub ∧
    cmd_verify decode env₁ base₁ e pub =
      some (buildVerifyResult true [] (validate_statement stmt) []) ∧
    (buildVerifyResult true [] (validate_statement stmt) []).digest_ok = true ∧
    (buildVerifyResult true [] (validate_statement stmt) []).schema_ok = false := by
  have hfalse : (validate_statement stmt).isEmpty = false := by
    cases hc : (validate_statement stmt).isEmpty
    · rfl
    · exact absurd (List.isEmpty_iff.mp hc) hval
  have hcv : ∀ (env : FSEnv) (base : List String), cmd_verify decode env base e pub =
      some (buildVerifyResult true [] (validate_statement stmt) []) := by
    intro env base
    simp only [cmd_verify, hsig, hdec, hfalse, Bool.false_eq_true, if_false]
  refine ⟨(hcv env₁ base₁).trans (hcv env₂ base₂).symm, hcv env₁ base₁, rfl, ?_⟩
  simp [buildVerifyResult, hfalse]

/-- C10 witness: a concrete envelope whose payload decodes to a
schema-invalid statement; `cmd_verify` returns the same result over two
radically different filesystems, with `digest_ok = true` and
`schema_ok = false`. -/
theorem c10_witness :
    cmd_verify c10Decode emptyFS [("base" : String)] c10Envelope 3 =
      cmd_verify c10Decode c10AltEnv [("elsewhere" : String)] c10Envelope 3 ∧
    ∃ r, cmd_verify c10Decode emptyFS [("base" : String)] c10Envelope 3 = some r ∧
      r.digest_ok = true ∧ r.schema_ok = false := by
  obtain ⟨h1, h2, h3, h4⟩ := c10_digest_skipped_on_schema_failure c10Decode emptyFS c10AltEnv
    [("base" : String)] [("elsewhere" : String)] c10Envelope 3 c10Stmt rfl rfl (by decide)
  exact ⟨h1, buildVerifyResult true [] (validate_statement c10Stmt) [], h2, h3, h4⟩

/-- C8: guard construction fails for every principal whose write-scope
set or allowed-endpoint set is empty — `from_alou` raises before either
constructor runs, `FileScope.__init__` rejects an empty scope list,
`MCPGuard.__init__` rejects an empty endpoint set — and a successfully
constructed guard never holds an empty capability set. -/
theorem c8_empty_capabilities (env : FSEnv) (base : List String) (mcp ws : List String) :
    ((mcp = [] ∨ ws = []) →
       RuntimeGuard.from_alou env base mcp ws =
         .error ("ALOU missing mcp_allow or fs_write_scopes")) ∧
    FileScope.init env base [] = .error ("No write scopes configured") ∧
    MCPGuard.init [] = .error ("No MCP endpoints allowed") ∧
    (∀ g, RuntimeGuard.from_alou env base mcp ws = .ok g →
       g.fs.write_scopes ≠ [] ∧ g.mcp.allowed ≠ []) := by
  refine ⟨?_, rfl, rfl, ?_⟩
  · intro h
    unfold RuntimeGuard.from_alou
    rw [if_pos h]
  · intro g hg
    unfold RuntimeGuard.from_alou at hg
    by_cases h : mcp = [] ∨ ws = []
    · rw [if_pos h] at hg; cases hg
    · rw [if_neg h] at hg
      push_neg at h
      obtain ⟨hm, hw⟩ := h
      simp only [FileScope.init, MCPGuard.init, if_neg hw, if_neg hm, bind, Except.bind,
        pure, Except.pure, Except.ok.injEq] at hg
      rw [← hg]
      exact ⟨hw, hm⟩

/-- C8 witness: a concrete principal with endpoints but no write scopes
is rejected, and the individual constructors reject empty sets. -/
theorem c8_witness :
    RuntimeGuard.from_alou emptyFS [("b" : String)] [("file" : String)] [] =
      .error ("ALOU missing mcp_allow or fs_write_scopes") ∧
    FileScope.init emptyFS [("b" : String)] [] = .error ("No write scopes configured") ∧
    MCPGuard.init [] = .error ("No MCP endpoints allowed") := by
  obtain ⟨h1, h2, h3, _⟩ :=
    c8_empty_capabilities emptyFS [("b" : String)] [("file" : String)] []
  exact ⟨h1 (Or.inr rfl), h2, h3⟩

theorem walkCheck_error (env : FSEnv) (base : List String) (path : String) :
    ∀ (fuel : Nat) (current : List String),
      List.isPrefixOf base current = true →
      (∃ n, base.length ≤ n ∧ n ≤ current.length ∧ env.isSymlink (current.take n) = true) →
      current.length < base.length + fuel →
      walkCheck env base path fuel current = .error ("symlink not allowed in path: " ++ path) := by
  intro fuel
  induction fuel with
  | zero =>
      intro current hpre _ hlen
      have := (List.isPrefixOf_iff_prefix.mp hpre).length_le
      omega
  | succ f ih =>
      intro current hpre hsym hlen
      obtain ⟨n, hn1, hn2, hn3⟩ := hsym
      unfold walkCheck
      by_cases hcur : env.isSymlink current = true
      · rw [if_pos hcur]
      · rw [if_neg hcur]
        have hnlt : n < current.length := by
          rcases Nat.lt_or_ge n current.length with hlt | hge
          · exact hlt
          · exfalso
            have hn : n = current.length := le_antisymm hn2 hge
            rw [hn, List.take_length] at hn3
            exact hcur hn3
        by_cases hbase : current = base
        · exfalso
          rw [hbase] at hnlt
          omega
        · rw [if_neg hbase]
          have hle := (List.isPrefixOf_iff_prefix.mp hpre).length_le
          have hneq : base.length ≠ current.length := by
            intro heq
            have hx := List.prefix_iff_eq_take.mp (List.isPrefixOf_iff_prefix.mp hpre)
            rw [heq, List.take_length] at hx
            exact hbase hx.symm
          apply ih
          · rw [List.isPrefixOf_iff_prefix, List.dropLast_eq_take]
            exact List.prefix_take_iff.mpr ⟨List.isPrefixOf_iff_prefix.mp hpre, by omega⟩
          · refine ⟨n, hn1, ?_, ?_⟩
            · rw [List.length_dropLast]; omega
            · rw [List.dropLast_eq_take, List.take_take,
                min_eq_left (by omega : n ≤ current.length - 1)]
              exact hn3
          · rw [List.length_dropLast]
            omega

/-- C2 (amended): the Capability Guard's `assert_write_allowed` rejects
(with `ScopeError`) every write request whose path is absolute or
home-relative, every request whose candidate resolves outside the
sandbox root, and every request for which some component of the
*resolved* target chain, from the sandbox root down to the target, is
observed as a symlink by the final walk — all regardless of whether the
final target exists (the guard never consults existence).  (As stated —
rejecting every request whose *requested* path contains a symlinked
component — the claim fails: an intermediate symlink that resolves back
inside the sandbox root is followed and allowed, see the
counterexample.) -/
theorem c2_guard_rejections (env : FSEnv) (fs : FileScope) (path : String)
    (h : strStarts path '~' = true ∨ strStarts path '/' = true ∨
      List.isPrefixOf fs.base_dir (env.resolve (fs.base_dir ++ pathComponents path)) = false ∨
      ∃ n, fs.base_dir.length ≤ n ∧
        n ≤ (env.resolve (fs.base_dir ++ pathComponents path)).length ∧
        env.isSymlink ((env.resolve (fs.base_dir ++ pathComponents path)).take n) = true) :
    ∃ msg, FileScope.assert_write_allowed env fs path = .error msg := by
  simp only [FileScope.assert_write_allowed, FileScope.normalize_target]
  by_cases h1 : strStarts path '~' = true
  · rw [if_pos h1]; exact ⟨_, rfl⟩
  · rw [if_neg h1]
    by_cases h2 : strStarts path '/' = true
    · rw [if_pos h2]; exact ⟨_, rfl⟩
    · rw [if_neg h2]
      by_cases h3 : env.isSymlink (fs.base_dir ++ pathComponents path) = true
      · rw [if_pos h3]; exact ⟨_, rfl⟩
      · rw [if_neg h3]
        by_cases h4 : env.isSymlink (env.resolve (fs.base_dir ++ pathComponents path)) = true
        · rw [if_pos h4]; exact ⟨_, rfl⟩
        · rw [if_neg h4]
          by_cases h5 : List.isPrefixOf fs.base_dir
              (env.resolve (fs.base_dir ++ pathComponents path)) = true
          · rw [if_neg (not_not_intro h5)]
            have hsym : ∃ n, fs.base_dir.length ≤ n ∧
                n ≤ (env.resolve (fs.base_dir ++ pathComponents path)).length ∧
                env.isSymlink ((env.resolve (fs.base_dir ++ pathComponents path)).take n) = true := by
              rcases h with h | h | h | h
              · exact absurd h h1
              · exact absurd h h2
              · rw [h5] at h; cases h
              · exact h
            rw [walkCheck_error env fs.base_dir path _ _ h5 hsym (by omega)]
            exact ⟨_, rfl⟩
          · rw [if_pos h5]
            exact ⟨_, rfl⟩

/-- C2 counterexample: a write request for `link/file` where `/base/link`
is a symbolic link to the in-sandbox directory `/base/dir` — a symlinked
component strictly between the sandbox root and the target — is
*allowed* by `assert_write_allowed` (the link is resolved away before
the symlink walk), even though the final target does not exist.  This
falsifies the claim's "any symlinked component between the sandbox root
and the target ... is always rejected". -/
theorem c2_counterexample :
    c2Env.isSymlink [("base" : String), ("link" : String)] = true ∧
    pathComponents "link/file" = [("link" : String), ("file" : String)] ∧
    c2Env.pathExists [("base" : String), ("dir" : String), ("file" : String)] = false ∧
    FileScope.assert_write_allowed c2Env c2Fs "link/file" =
      .ok [("base" : String), ("dir" : String), ("file" : String)] :=
  ⟨rfl, rfl, rfl, rfl⟩

/-- C2 witness: concrete rejections of an absolute path, a home-relative
path, an escaping path, and a path whose resolved chain contains a
symlinked component at walk time. -/
theorem c2_witness :
    (∃ msg, FileScope.assert_write_allowed emptyFS c2Fs "/etc/passwd" = .error msg) ∧
    (∃ msg, FileScope.assert_write_allowed emptyFS c2Fs "~/x.md" = .error msg) ∧
    (∃ msg, FileScope.assert_write_allowed c2EscEnv c2Fs "../evil.md" = .error msg) ∧
    (∃ msg, FileScope.assert_write_allowed c2WalkEnv c2Fs "sub/file" = .error msg) := by
  refine ⟨c2_guard_rejections _ _ _ (Or.inr (Or.inl (by decide))),
         c2_guard_rejections _ _ _ (Or.inl (by decide)),
         c2_guard_rejections _ _ _ (Or.inr (Or.inr (Or.inl (by decide)))),
         c2_guard_rejections _ _ _ (Or.inr (Or.inr (Or.inr ⟨2, by decide, by decide, by decide⟩)))⟩

/-- C6 (amended): for every *material* whose (name-or-uri) value is a
string matching the URI-scheme pattern, `materialStep` is independent of
the filesystem and base directory (no path check or digest computation
is attempted) and fails iff the normalized material's digest has no
`sha256` entry, leaving the material otherwise unchanged apart from the
name/uri folding and the digest `setdefault`.  (As stated — for every
*subject and* material — the claim fails: subjects get no remote
exemption, see the counterexample.) -/
theorem c6_remote_materials (env env' : FSEnv) (base base' : List String)
    (mkvs : List (String × Json)) (nm : String) (b : Bool)
    (hname : materialName mkvs = some (.str nm))
    (hremote : isRemote nm = true)
    (hdig : sha256Mem ((lookupJson (materialNormalized mkvs (.str nm)) ("digest")).getD (.obj []))
      = some b) :
    materialStep env base (.obj mkvs) = materialStep env' base' (.obj mkvs) ∧
    materialStep env base (.obj mkvs) =
      some ((if b then [] else ["remote material requires digest: " ++ nm]),
        .obj (materialNormalized mkvs (.str nm))) := by
  have hne : (nm == "") = false := by
    cases hq : (nm == "")
    · rfl
    · exfalso
      have hq' : nm = "" := by simpa using hq
      rw [hq'] at hremote
      exact absurd hremote (by decide)
  cases b
  · constructor
    · simp only [materialStep, hname, jsonFalsy, hne, Bool.false_eq_true, if_false,
        hremote, if_true, hdig]
    · simp only [materialStep, hname, jsonFalsy, hne, Bool.false_eq_true, if_false,
        hremote, if_true, hdig]
  · constructor
    · simp only [materialStep, hname, jsonFalsy, hne, Bool.false_eq_true, if_false,
        hremote, if_true, hdig]
    · simp only [materialStep, hname, jsonFalsy, hne, Bool.false_eq_true, if_false,
        hremote, if_true, hdig]

/-- C6 counterexample: a *subject* whose name is remote
(`https://example.org/spec`) and whose digest is pre-supplied is still
path-checked by `fill_and_check_digests` and fails with "subject path
not found" — falsifying the claim's "for every subject and material
whose name matches a URI scheme pattern ... skips the local path checks
and fails ... if and only if no digest is pre-supplied". -/
theorem c6_counterexample :
    isRemote "https://example.org/spec" = true ∧
    sha256Mem (.obj [(("sha256" : String), .str "ab")]) = some true ∧
    fill_and_check_digests emptyFS [("base" : String)] (.obj c6RemoteSubjStmt) =
      some (["subject path not found: https://example.org/spec"], .obj c6RemoteSubjStmt) := by
  exact ⟨by decide, rfl, rfl⟩

/-- C6 witness: a remote material with a pre-supplied digest passes with
no error under two different filesystems; a remote material without one
fails with "remote material requires digest". -/
theorem c6_witness :
    materialStep emptyFS [("base" : String)] c6Mat1 =
      materialStep c10AltEnv [("x" : String)] c6Mat1 ∧
    (∃ m, materialStep emptyFS [("base" : String)] c6Mat1 = some ([], m)) ∧
    (∃ m, materialStep emptyFS [("base" : String)] c6Mat2 =
      some (["remote material requires digest: https://example.org/spec"], m)) := by
  obtain ⟨hA, hB⟩ := c6_remote_materials emptyFS c10AltEnv [("base" : String)] [("x" : String)]
    [(("name" : String), .str "https://example.org/spec"),
     (("digest" : String), .obj [(("sha256" : String), .str "ab")])]
    "https://example.org/spec" true rfl (by decide) rfl
  obtain ⟨_, hD⟩ := c6_remote_materials emptyFS c10AltEnv [("base" : String)] [("x" : String)]
    [(("uri" : String), .str "https://example.org/spec")]
    "https://example.org/spec" false rfl (by decide) rfl
  exact ⟨hA, ⟨_, hB⟩, ⟨_, hD⟩⟩

/-- C5 counterexample: two statements equal up to a permutation of the
subject list — the two subjects share the name `a` but carry different
digests — produce *different* signed payloads: the sort is stable, so
equal-keyed subjects keep their input order.  This falsifies the claim
for arbitrary permutations. -/
theorem c5_counterexample :
    c5Stmt2 = objSet c5Stmt1 ("subject") (.arr [c5SubB, c5SubA]) ∧
    lookupJson c5Stmt1 ("subject") = some (.arr [c5SubA, c5SubB]) ∧
    ([c5SubA, c5SubB] : List Json).Perm [c5SubB, c5SubA] ∧
    (dsse_sign c5Stmt1 1 "k").payload ≠ (dsse_sign c5Stmt2 1 "k").payload := by
  refine ⟨rfl, rfl, List.Perm.swap c5SubB c5SubA [], ?_⟩
  decide

/-- C5 (amended): canonical ordering is deterministic for statements
whose subjects have pairwise-distinct names and whose predicate
materials have pairwise-distinct names: permuting the subject list and
the materials list produces a byte-identical signed payload. -/
theorem c5_canonical_determinism (kvs₁ pk : List (String × Json))
    (a₁ a₂ m₁ m₂ : List Json) (priv : Nat) (kid : String)
    (hs : lookupJson kvs₁ ("subject") = some (.arr a₁))
    (hp : lookupJson kvs₁ ("predicate") = some (.obj pk))
    (hm : lookupJson pk ("materials") = some (.arr m₁))
    (hps : a₁.Perm a₂) (hpm : m₁.Perm m₂)
    (hnds : (a₁.map nameKey).Nodup) (hndm : (m₁.map nameKey).Nodup) :
    (dsse_sign (objSet (objSet kvs₁ ("subject") (.arr a₂)) ("predicate")
        (.obj (objSet pk ("materials") (.arr m₂)))) priv kid).payload =
      (dsse_sign kvs₁ priv kid).payload := by
  have hS : sortByName a₂ = sortByName a₁ := (sortByName_eq_of_perm hps hnds).symm
  have hM : sortByName m₂ = sortByName m₁ := (sortByName_eq_of_perm hpm hndm).symm
  have hsub2 : lookupJson (objSet (objSet kvs₁ ("subject") (.arr a₂)) ("predicate")
      (.obj (objSet pk ("materials") (.arr m₂)))) ("subject") = some (.arr a₂) := by
    rw [lookupJson_objSet_ne (by decide)]
    exact lookupJson_objSet_self hs _
  have hpred2 : lookupJson (objSet (objSet kvs₁ ("subject") (.arr a₂)) ("predicate")
      (.obj (objSet pk ("materials") (.arr m₂)))) ("predicate") =
      some (.obj (objSet pk ("materials") (.arr m₂))) := by
    apply lookupJson_objSet_self
    rw [lookupJson_objSet_ne (by decide)]
    exact hp
  have hC2 : canonicalizeStatement (objSet (objSet kvs₁ ("subject") (.arr a₂)) ("predicate")
      (.obj (objSet pk ("materials") (.arr m₂)))) = canonicalizeStatement kvs₁ := by
    unfold canonicalizeStatement
    rw [canonSubjects_arr hsub2, canonSubjects_arr hs]
    have hpred2' : lookupJson (objSet (objSet (objSet kvs₁ ("subject") (.arr a₂)) ("predicate")
        (.obj (objSet pk ("materials") (.arr m₂)))) ("subject") (.arr (sortByName a₂)))
        ("predicate") = some (.obj (objSet pk ("materials") (.arr m₂))) := by
      rw [lookupJson_objSet_ne (by decide)]
      exact hpred2
    have hm2 : lookupJson (objSet pk ("materials") (.arr m₂)) ("materials") =
        some (.arr m₂) := lookupJson_objSet_self hm _
    have hpred1' : lookupJson (objSet kvs₁ ("subject") (.arr (sortByName a₁))) ("predicate") =
        some (.obj pk) := by
      rw [lookupJson_objSet_ne (by decide)]
      exact hp
    rw [canonMaterials_arr hpred2' hm2, canonMaterials_arr hpred1' hm]
    rw [hS, hM, objSet_objSet,
      objSet_comm (by decide : ("predicate" : String) ≠ "subject"),
      objSet_objSet, objSet_objSet]
  show signedPayload _ = signedPayload _
  unfold signedPayload
  rw [hC2]

/-- C5 witness: a concrete statement with distinct-name subjects and
materials, permuted, yields a byte-identical signed payload. -/
theorem c5_witness :
    (dsse_sign (objSet (objSet c5wStmt ("subject") (.arr [c5wS2, c5wS1])) ("predicate")
        (.obj (objSet c5wPred ("materials") (.arr [c5wM2, c5wM1])))) 1 "k").payload =
      (dsse_sign c5wStmt 1 "k").payload :=
  c5_canonical_determinism c5wStmt c5wPred [c5wS1, c5wS2] [c5wS2, c5wS1]
    [c5wM1, c5wM2] [c5wM2, c5wM1] 1 "k" rfl rfl rfl
    (List.Perm.swap c5wS2 c5wS1 []) (List.Perm.swap c5wM2 c5wM1 [])
    (by decide) (by decide)

/-- C1: for every valid statement (schema-valid, and
`fill_and_check_digests` finds every subject/material digest present and
matching the files under the base directory, leaving the statement
unchanged), verifying the envelope produced by `dsse_sign` against the
matching key succeeds: `cmd_verify` — with a faithful `json.loads` for
the signed payload — reports `signature_ok`, `schema_ok` and `digest_ok`
all true, `error_code = "OK"`, and exits 0. -/
theorem c1_round_trip (decode : List Nat → Option Json) (env : FSEnv) (base : List String)
    (stmt : List (String × Json)) (priv : Nat) (kid : String)
    (hdec : decode (signedPayload stmt) = some (.obj (canonicalizeStatement stmt)))
    (hval : validate_statement (.obj stmt) = [])
    (hfill : fill_and_check_digests env base (.obj stmt) = some ([], .obj stmt)) :
    cmd_verify decode env base (dsse_sign stmt priv kid) priv =
      some (buildVerifyResult true [] [] []) ∧
    (buildVerifyResult true [] [] []).signature_ok = true ∧
    (buildVerifyResult true [] [] []).schema_ok = true ∧
    (buildVerifyResult true [] [] []).digest_ok = true ∧
    (buildVerifyResult true [] [] []).error_code = "OK" ∧
    (buildVerifyResult true [] [] []).exit = 0 := by
  have hv := dsse_verify_sign stmt priv kid
  have hvalC := validate_canonical stmt hval
  have hfillC := fill_canonical env base stmt hfill
  have hdec' : decode (dsse_sign stmt priv kid).payload =
      some (.obj (canonicalizeStatement stmt)) := hdec
  refine ⟨?_, rfl, rfl, rfl, rfl, rfl⟩
  simp only [cmd_verify, hv, hdec', hvalC, List.isEmpty_nil, if_true, hfillC, Option.map_some']

/-- C1 witness: a concrete statement over a one-file sandbox round-trips
through `dsse_sign` and `cmd_verify` with all three sub-checks true and
exit code 0. -/
theorem c1_witness :
    cmd_verify c1Decode c1Env [("base" : String)] (dsse_sign c1Stmt 11 "") 11 =
      some (buildVerifyResult true [] [] []) ∧
    (buildVerifyResult true [] [] []).signature_ok = true ∧
    (buildVerifyResult true [] [] []).schema_ok = true ∧
    (buildVerifyResult true [] [] []).digest_ok = true ∧
    (buildVerifyResult true [] [] []).exit = 0 := by
  obtain ⟨h1, h2, h3, h4, _, h6⟩ := c1_round_trip c1Decode c1Env [("base" : String)] c1Stmt 11 ""
    (by simp [c1Decode]) (by decide) rfl
  exact ⟨h1, h2, h3, h4, h6⟩
